import Mathlib

set_option maxRecDepth 8000

/-!
OrchestrAI — shallow embedding of the orchestration core

This file embeds, in Lean 4, the conversation state machine and the
contact-resolution pipeline of the OrchestrAI repository
(`src/orchestrai/graph/nodes.py`, `src/orchestrai/graph/builder.py`,
`src/orchestrai/graph/state.py`, `src/orchestrai/services/contact_directory.py`)
and proves or refutes the frozen specification claims about it.

Conventions of the embedding:
* Python strings are Lean `String`s; `str.strip()` is `pyStrip`,
  `str.lower()` is `String.toLower` (the repository only handles ASCII data).
* LLM calls (`_route_pending_state`, slot extraction, meeting-intent
  extraction, response generation, the full planner) are external
  capabilities: their structured outputs are supplied by an `Oracle`
  record quantified over in every theorem, and `_generate_response` is
  modelled by its deterministic fallback (it returns its situation string
  when the LLM call errors; the claims never depend on message wording).
* The persisted contact file is modelled as a list of parsed JSON rows
  (`Row`); `save_contact` threads the updated row list instead of writing
  to disk.  `difflib.SequenceMatcher.ratio` is implemented exactly
  (matching-blocks sum over longest common substrings, no junk heuristic —
  the inputs are far below the autojunk threshold), with exact rational
  arithmetic in place of floats.
* LangGraph's partial state updates are an `Update` record of optional
  fields merged by `applyUpdate` (messages append, other keys overwrite).
-/

/-! ## Python string primitives -/

/-- Python's whitespace test for `str.strip`/`str.split` (ASCII range). -/
def pyIsSpace (c : Char) : Bool :=
  c = ' ' || c = '\t' || c = '\n' || c = '\x0d' || c = '\x0b' || c = '\x0c'

/-- `str.strip()` on a character list. -/
def pyStripList (l : List Char) : List Char :=
  ((l.dropWhile pyIsSpace).reverse.dropWhile pyIsSpace).reverse

/-- `str.strip()`. -/
def pyStrip (s : String) : String := ⟨pyStripList s.data⟩

/-- `str.split()` with no argument: split on whitespace runs, no empty parts. -/
def pySplitWs (s : String) : List String :=
  ((s.data.splitOnP pyIsSpace).filter (· ≠ [])).map (⟨·⟩)

/-- Python `str.lower()` (ASCII); character-list form so that the kernel
can evaluate it. -/
def pyLower (s : String) : String := ⟨s.data.map Char.toLower⟩

/-- `" ".join(parts)`. -/
def pyJoinSpace : List String → String
  | [] => ""
  | [t] => t
  | t :: ts => t ++ " " ++ pyJoinSpace ts

theorem dropWhile_pyIsSpace_idem (l : List Char) :
    (l.dropWhile pyIsSpace).dropWhile pyIsSpace = l.dropWhile pyIsSpace := by
  induction l with
  | nil => rfl
  | cons c cs ih =>
    by_cases h : pyIsSpace c
    · simp [List.dropWhile_cons, h, ih]
    · simp [List.dropWhile_cons, h]

theorem head_dropWhile_false {p : Char → Bool} {l : List Char} {c : Char} {cs : List Char}
    (h : l.dropWhile p = c :: cs) : p c = false := by
  induction l with
  | nil => simp at h
  | cons a as ih =>
    by_cases ha : p a
    · rw [List.dropWhile_cons, if_pos ha] at h; exact ih h
    · rw [List.dropWhile_cons, if_neg ha] at h
      cases h; simpa using ha

theorem dropWhile_eq_self_of_head {p : Char → Bool} {l : List Char}
    (h : ∀ c ∈ l.head?, p c = false) : l.dropWhile p = l := by
  cases l with
  | nil => rfl
  | cons c cs =>
    have := h c (by simp)
    simp [List.dropWhile_cons, this]

theorem getLast?_dropWhile {p : Char → Bool} {l : List Char}
    (h : l.dropWhile p ≠ []) : (l.dropWhile p).getLast? = l.getLast? := by
  induction l with
  | nil => simp at h
  | cons c cs ih =>
    by_cases hc : p c
    · rw [List.dropWhile_cons, if_pos hc] at h ⊢
      rw [ih h]
      cases hcs : cs with
      | nil => rw [hcs] at h; simp at h
      | cons b bs => simp
    · rw [List.dropWhile_cons, if_neg hc]

theorem pyStripList_idem (l : List Char) : pyStripList (pyStripList l) = pyStripList l := by
  unfold pyStripList
  set A := l.dropWhile pyIsSpace with hA
  set B := A.reverse.dropWhile pyIsSpace with hB
  by_cases hBne : B = []
  · simp [hBne]
  · have step1 : B.reverse.dropWhile pyIsSpace = B.reverse := by
      apply dropWhile_eq_self_of_head
      intro c hc
      rw [List.head?_reverse] at hc
      rw [hB, getLast?_dropWhile (by rw [← hB]; exact hBne), List.getLast?_reverse] at hc
      cases hAe : A with
      | nil => rw [hAe] at hc; simp at hc
      | cons a as =>
        rw [hAe] at hc; simp at hc
        subst hc
        exact head_dropWhile_false (hA.symm.trans hAe)
    rw [step1, List.reverse_reverse, hB, dropWhile_pyIsSpace_idem]

theorem pyStrip_idem (s : String) : pyStrip (pyStrip s) = pyStrip s := by
  unfold pyStrip
  exact congrArg String.mk (pyStripList_idem s.data)

/-! ## Contact directory (`services/contact_directory.py`) -/

/-- `EMAIL_REGEX = ^[^@\s]+@[^@\s]+\.[^@\s]+$`: a nonempty run of
non-`@`, non-whitespace characters, an `@`, then a run containing a `.`
that has at least one character on each side. -/
def is_valid_email (value : String) : Bool :=
  let t := pyStripList value.data
  let a := t.takeWhile (· ≠ '@')
  let b := (t.dropWhile (· ≠ '@')).drop 1
  let okChar : Char → Bool := fun c => c ≠ '@' && !pyIsSpace c
  decide (a ≠ []) && a.all okChar &&
    decide (t.length = a.length + 1 + b.length) &&
    decide (b ≠ []) && b.all okChar &&
    ((b.drop 1).dropLast.contains '.')

/-- `Contact` dataclass. -/
structure Contact where
  first_name : String
  last_name : String
  email : String
  phone : String := ""
  deriving Repr, DecidableEq

/-- `Contact.name` property: `f"{first_name} {last_name}".strip()`. -/
def Contact.name (c : Contact) : String := pyStrip (c.first_name ++ " " ++ c.last_name)

/-- `_normalize`: keep alphanumeric/space characters, lowercase, strip. -/
def pyIsAlnum (c : Char) : Bool := c.isAlpha || c.isDigit

def pyNormalize (value : String) : String :=
  pyStrip ⟨(value.data.filter (fun c => pyIsAlnum c || pyIsSpace c)).map Char.toLower⟩

/-- One persisted contact row: a JSON object with (up to) these keys; a key
the stored document lacks is the empty string (`row.get(k, "")`). -/
structure Row where
  first_name : String := ""
  last_name : String := ""
  name : String := ""
  email : String := ""
  phone : String := ""
  deriving Repr, DecidableEq

/-- Row-processing loop shared by `_load_json_contacts` / `_load_csv_contacts`:
trim the fields, fall back to splitting a legacy `name`, and keep the row only
when some name part is present and the email is valid. -/
def parseRow (row : Row) : Option Contact :=
  let first0 := pyStrip row.first_name
  let last0 := pyStrip row.last_name
  let legacy := pyStrip row.name
  let fl : String × String :=
    if first0 = "" && last0 = "" && legacy ≠ "" then
      match pySplitWs legacy with
      | [] => (first0, last0)
      | [t] => (t, "")
      | t :: rest => (t, pyJoinSpace rest)
    else (first0, last0)
  let email := pyStrip row.email
  let phone := pyStrip row.phone
  if (fl.1 ≠ "" || fl.2 ≠ "") && is_valid_email email then
    some ⟨fl.1, fl.2, email, phone⟩
  else none

/-- The contact list produced from a parsed JSON/CSV document. -/
def loadRows (rows : List Row) : List Contact := rows.filterMap parseRow

/-! ### `difflib.SequenceMatcher` (as called with short, junk-free inputs) -/

/-- Length of the longest common suffix of `a.take (i+1)` and `b.take (j+1)`
(the `j2len` table of `find_longest_match`). -/
def suffixLen (a b : List Char) : Nat → Nat → Nat
  | 0, j =>
    if h : 0 < a.length ∧ j < b.length then
      (if a.get ⟨0, h.1⟩ = b.get ⟨j, h.2⟩ then 1 else 0)
    else 0
  | i + 1, 0 =>
    if h : i + 1 < a.length ∧ 0 < b.length then
      (if a.get ⟨i + 1, h.1⟩ = b.get ⟨0, h.2⟩ then 1 else 0)
    else 0
  | i + 1, j + 1 =>
    if h : i + 1 < a.length ∧ j + 1 < b.length then
      (if a.get ⟨i + 1, h.1⟩ = b.get ⟨j + 1, h.2⟩ then suffixLen a b i j + 1 else 0)
    else 0

theorem suffixLen_le (a b : List Char) :
    ∀ i j, suffixLen a b i j ≤ i + 1 ∧ suffixLen a b i j ≤ j + 1
  | 0, j => by
    simp only [suffixLen]
    split
    · split <;> omega
    · omega
  | i + 1, 0 => by
    simp only [suffixLen]
    split
    · split <;> omega
    · omega
  | i + 1, j + 1 => by
    have ih := suffixLen_le a b i j
    simp only [suffixLen]
    split
    · split <;> omega
    · omega

/-- All candidate match endpoints `(i, j, common-suffix length)` in the
Python scan order (ascending `i`, then ascending `j`). -/
def flmCands (a b : List Char) : List (Nat × Nat × Nat) :=
  (List.range a.length).flatMap (fun i =>
    (List.range b.length).map (fun j => (i, j, suffixLen a b i j)))

/-- `find_longest_match` over full ranges: the maximal-size matching block,
scanning ending positions by ascending `i` then `j` and keeping the first
maximum, exactly the scan order of the Python implementation.  Returns
`(start in a, start in b, size)`. -/
def findLongestMatch (a b : List Char) : Nat × Nat × Nat :=
  let best := (flmCands a b).foldl
    (fun best c => if c.2.2 > best.2.2 then c else best) (0, 0, 0)
  (best.1 + 1 - best.2.2, best.2.1 + 1 - best.2.2, best.2.2)

theorem foldl_best_mem (l : List (Nat × Nat × Nat)) (init : Nat × Nat × Nat) :
    l.foldl (fun best c => if c.2.2 > best.2.2 then c else best) init = init ∨
      l.foldl (fun best c => if c.2.2 > best.2.2 then c else best) init ∈ l := by
  induction l generalizing init with
  | nil => left; rfl
  | cons c cs ih =>
    simp only [List.foldl_cons]
    rcases ih (if c.2.2 > init.2.2 then c else init) with h | h
    · rw [h]
      by_cases hc : c.2.2 > init.2.2
      · right; simp [hc]
      · left; simp [hc]
    · right; exact List.mem_cons_of_mem _ h

theorem flm_spec (a b : List Char) (hk : (findLongestMatch a b).2.2 ≠ 0) :
    (findLongestMatch a b).1 + (findLongestMatch a b).2.2 ≤ a.length ∧
      (findLongestMatch a b).2.1 + (findLongestMatch a b).2.2 ≤ b.length ∧
      1 ≤ (findLongestMatch a b).2.2 := by
  unfold findLongestMatch at hk ⊢
  simp only at hk ⊢
  have hm := foldl_best_mem (flmCands a b) (0, 0, 0)
  generalize hb : List.foldl (fun best c => if c.2.2 > best.2.2 then c else best)
      (0, 0, 0) (flmCands a b) = best at hk hm ⊢
  rcases hm with h | h
  · subst h; simp at hk
  · simp only [flmCands, List.mem_flatMap, List.mem_map, List.mem_range] at h
    obtain ⟨i, hi, j, hj, hbest⟩ := h
    rw [← hbest] at hk ⊢
    have hs := suffixLen_le a b i j
    simp only at hk ⊢
    omega

/-- Sum of the sizes of all matching blocks (`get_matching_blocks`),
recursing on an explicit depth bound so the kernel can evaluate it; every
recursive call strictly shrinks `a.length + b.length` (see `flm_spec`), so
with initial fuel `a.length + b.length` the bound is never hit
(`matchSumFuel_congr`). -/
def matchSumFuel : Nat → List Char → List Char → Nat
  | 0, _, _ => 0
  | fuel + 1, a, b =>
    match findLongestMatch a b with
    | (i, j, k) =>
      if k = 0 then 0
      else
        matchSumFuel fuel (a.take i) (b.take j) + k +
          matchSumFuel fuel (a.drop (i + k)) (b.drop (j + k))

def matchSum (a b : List Char) : Nat := matchSumFuel (a.length + b.length) a b

/-- The fuel bound is irrelevant as soon as it dominates the summed length:
`matchSumFuel` never exhausts its fuel on the way down. -/
theorem matchSumFuel_congr :
    ∀ (f1 f2 : Nat) (a b : List Char), a.length + b.length ≤ f1 →
      a.length + b.length ≤ f2 → matchSumFuel f1 a b = matchSumFuel f2 a b
  | f1, f2, a, b, h1, h2 => by
    match f1, f2 with
    | 0, 0 => rfl
    | 0, g2 + 1 =>
      have ha : a = [] := by
        cases a with
        | nil => rfl
        | cons x xs => simp at h1
      have hb : b = [] := by
        cases b with
        | nil => rfl
        | cons x xs => simp at h1
      subst ha; subst hb
      simp [matchSumFuel, findLongestMatch, flmCands]
    | g1 + 1, 0 =>
      have ha : a = [] := by
        cases a with
        | nil => rfl
        | cons x xs => simp at h2
      have hb : b = [] := by
        cases b with
        | nil => rfl
        | cons x xs => simp at h2
      subst ha; subst hb
      simp [matchSumFuel, findLongestMatch, flmCands]
    | g1 + 1, g2 + 1 =>
      simp only [matchSumFuel]
      match hf : findLongestMatch a b with
      | (i, j, k) =>
        by_cases hk : k = 0
        · simp [hk]
        · have hs := flm_spec a b (by rw [hf]; exact hk)
          rw [hf] at hs
          simp only at hs
          have htake : (a.take i).length + (b.take j).length ≤ g1 := by
            simp only [List.length_take]
            omega
          have htake2 : (a.take i).length + (b.take j).length ≤ g2 := by
            simp only [List.length_take]
            omega
          have hdrop : (a.drop (i + k)).length + (b.drop (j + k)).length ≤ g1 := by
            simp only [List.length_drop]
            omega
          have hdrop2 : (a.drop (i + k)).length + (b.drop (j + k)).length ≤ g2 := by
            simp only [List.length_drop]
            omega
          simp only [hk, if_false]
          rw [matchSumFuel_congr g1 g2 _ _ htake htake2,
            matchSumFuel_congr g1 g2 _ _ hdrop hdrop2]

/-- `SequenceMatcher(None, a, b).ratio()` with exact rational arithmetic. -/
def smRatio (a b : List Char) : ℚ :=
  if a.length + b.length = 0 then 1
  else mkRat (2 * (matchSum a b : Int)) (a.length + b.length)

/-- `_score(query, candidate)`. -/
def score (query candidate : String) : ℚ :=
  let qn := pyNormalize query
  let cn := pyNormalize candidate
  if qn = "" || cn = "" then 0 else smRatio qn.data cn.data

/-- The email local part (`contact.email.split("@", 1)[0]`). -/
def localPart (email : String) : String :=
  ⟨email.data.takeWhile (· ≠ '@')⟩

/-- The four exact-match fields of a contact, normalized. -/
def exactFields (c : Contact) : List String :=
  [pyNormalize c.first_name, pyNormalize c.last_name, pyNormalize c.name,
   pyNormalize (localPart c.email)]

/-- Fuzzy score of a contact against a query: max over name fields and the
email local part. -/
def contactScore (query : String) (c : Contact) : ℚ :=
  max (max (score query c.name) (score query c.first_name))
    (max (score query c.last_name) (score query (localPart c.email)))

/-- Stable descending insertion by score: a later entry is placed after every
earlier entry of score `≥` its own, matching `list.sort(key=score,
reverse=True)` (Python sorts are stable). -/
def insertRankedDesc (x : ℚ × Contact) : List (ℚ × Contact) → List (ℚ × Contact)
  | [] => [x]
  | y :: ys => if y.1 ≥ x.1 then y :: insertRankedDesc x ys else x :: y :: ys

def sortRankedDesc (l : List (ℚ × Contact)) : List (ℚ × Contact) :=
  l.foldl (fun acc x => insertRankedDesc x acc) []

/-- `search_contacts(query, threshold)` over an already-loaded directory.
`threshold = none` is the environment default `0.7`
(`RECIPIENT_MATCH_THRESHOLD` unset). -/
def search_contacts (contacts : List Contact) (query : String)
    (threshold : Option ℚ) : List Contact :=
  let normalized_query := pyNormalize query
  if normalized_query = "" then []
  else
    let min_score := threshold.getD (mkRat 7 10)
    let exact_matches := contacts.filter (fun c => decide (normalized_query ∈ exactFields c))
    if exact_matches ≠ [] then exact_matches
    else
      let ranked := (contacts.map (fun c => (contactScore query c, c))).filter
        (fun sc => decide (sc.1 ≥ min_score))
      ((sortRankedDesc ranked).map Prod.snd)

/-- `_save_contact_json` update/append loop: the first row whose stored email
matches case-insensitively is overwritten in place, otherwise the new row is
appended. -/
def mkRow (first_name last_name email phone : String) : Row :=
  { first_name := first_name, last_name := last_name,
    name := pyStrip (first_name ++ " " ++ last_name), email := email, phone := phone }

def saveJsonRows (rows : List Row) (first_name last_name email phone : String) : List Row :=
  match rows with
  | [] => [mkRow first_name last_name email phone]
  | r :: rs =>
    if pyLower (pyStrip r.email) = pyLower email then
      mkRow first_name last_name email phone :: rs
    else
      r :: saveJsonRows rs first_name last_name email phone

/-- `save_contact`: validate, then upsert into the (JSON) storage; returns the
saved `Contact` and the updated storage. -/
def save_contact (rows : List Row) (first_name last_name email phone : String) :
    Except String (Contact × List Row) :=
  let first := pyStrip first_name
  let last := pyStrip last_name
  let full_name := pyStrip (first ++ " " ++ last)
  let mail := pyStrip email
  let phone_value := pyStrip phone
  if full_name = "" then .error "Contact name is required."
  else if !is_valid_email mail then .error "A valid email is required."
  else
    .ok (⟨first, last, mail, phone_value⟩, saveJsonRows rows first last mail phone_value)

/-! ## Schemas (`schemas/models.py`) and graph state (`graph/state.py`) -/

/-- The two dispatchable task kinds of `pending_tasks` / `staged_tasks`. -/
inductive TaskKind where
  | email
  | calendar
  deriving Repr, DecidableEq

/-- A conversation message (`_context_messages` keeps human/AI only). -/
inductive Msg where
  | human (content : String)
  | ai (content : String)
  deriving Repr, DecidableEq

structure EmailContent where
  «to» : List String
  subject : String
  body : String
  deriving Repr, DecidableEq

/-- `CalendarEvent`; datetimes are abstract timestamps (a `datetime` is
always truthy in Python, so only presence matters to the control flow). -/
structure CalendarEvent where
  title : String
  start_time : Nat
  end_time : Nat
  attendees : List String
  location : Option String := none
  description : Option String := none
  deriving Repr, DecidableEq

structure MeetingIntent where
  create_calendar_event : Bool := false
  title : Option String := none
  start_time : Option Nat := none
  end_time : Option Nat := none
  attendees : Option (List String) := none
  location : Option String := none
  description : Option String := none
  deriving Repr, DecidableEq

structure EmailDraftUpdate where
  intent : String := "unknown"
  «to» : Option (List String) := none
  subject : Option String := none
  body : Option String := none
  deriving Repr, DecidableEq

structure OrchestratorOutput where
  action : String
  email_details : Option EmailContent := none
  calendar_details : Option CalendarEvent := none
  clarification_message : Option String := none
  deriving Repr, DecidableEq

structure ContactCaptureDetails where
  first_name : Option String := none
  last_name : Option String := none
  email : Option String := none
  phone : Option String := none
  deriving Repr, DecidableEq

structure ContactLookupIntent where
  intent : String := "other"
  query : Option String := none
  deriving Repr, DecidableEq

/-- Classification action of the pending-state router.  The schema class
(`PendingStateRoute`) is absent from the snapshot; its shape is fixed by its
callers in `nodes.py` (`decision.action`, `decision.recipient_candidate`) and
the action vocabulary listed in the routing prompt. -/
inductive RouteAction where
  | confirm
  | cancel
  | pause
  | greet
  | create
  | provide_details
  | alternate_recipient
  | other
  deriving Repr, DecidableEq

structure PendingStateRoute where
  action : RouteAction := .other
  recipient_candidate : Option String := none
  deriving Repr, DecidableEq

/-- `email_draft` working dict.  The code only ever stores non-empty values
under the keys `to`/`subject`/`body`, so key-present is value-non-empty. -/
structure Draft where
  «to» : List String := []
  subject : String := ""
  body : String := ""
  deriving Repr, DecidableEq

/-- Python truthiness of the draft dict (any key present). -/
def draftTruthy (d : Draft) : Bool :=
  !d.«to».isEmpty || d.subject ≠ "" || d.body ≠ ""

/-- `pending_contact_capture` dict; `none` models the empty dict `{}`. -/
structure Capture where
  query : String := ""
  awaiting_create_confirmation : Bool := false
  source : Option String := none
  deriving Repr, DecidableEq

/-- `GraphState` (TypedDict, total=False): absent keys are the `state.get`
defaults used by the nodes. -/
structure GraphState where
  messages : List Msg := []
  service_provider : Option String := none
  orchestrator_decision : Option String := none
  pending_tasks : List TaskKind := []
  staged_tasks : List TaskKind := []
  awaiting_confirmation : Bool := false
  email_details : Option EmailContent := none
  email_draft : Draft := {}
  calendar_details : Option CalendarEvent := none
  pending_contact_capture : Option Capture := none
  final_response : String := ""
  deriving Repr, DecidableEq

/-- A LangGraph partial state update: `none` means the key is absent from the
returned dict (old value kept); messages are appended by `add_messages`. -/
structure Update where
  messages : List Msg := []
  pending_tasks : Option (List TaskKind) := none
  staged_tasks : Option (List TaskKind) := none
  awaiting_confirmation : Option Bool := none
  email_details : Option (Option EmailContent) := none
  email_draft : Option Draft := none
  calendar_details : Option (Option CalendarEvent) := none
  orchestrator_decision : Option String := none
  pending_contact_capture : Option (Option Capture) := none
  final_response : Option String := none
  deriving Repr, DecidableEq

def applyUpdate (s : GraphState) (u : Update) : GraphState :=
  { s with
    messages := s.messages ++ u.messages,
    pending_tasks := u.pending_tasks.getD s.pending_tasks,
    staged_tasks := u.staged_tasks.getD s.staged_tasks,
    awaiting_confirmation := u.awaiting_confirmation.getD s.awaiting_confirmation,
    email_details := u.email_details.getD s.email_details,
    email_draft := u.email_draft.getD s.email_draft,
    calendar_details := u.calendar_details.getD s.calendar_details,
    orchestrator_decision :=
      (u.orchestrator_decision.map some).getD s.orchestrator_decision,
    pending_contact_capture := u.pending_contact_capture.getD s.pending_contact_capture,
    final_response := u.final_response.getD s.final_response }

/-- The structured outputs of the external LLM capabilities consumed during
one turn, one field per call site. -/
structure Oracle where
  execRoute : PendingStateRoute := {}
  captureRoute : PendingStateRoute := {}
  convRoute : PendingStateRoute := {}
  slotUpdate : EmailDraftUpdate := {}
  autofillSubject : Option String := none
  polishSubject : Option String := none
  polishBody : Option String := none
  meeting : MeetingIntent := {}
  parsedContact : Option ContactCaptureDetails := none
  lookup : ContactLookupIntent := {}
  plan : OrchestratorOutput := { action := "none" }
  sendEmailResult : Except String String := .ok "sent"
  calendarResult : Except String String := .ok "created"
  deriving Repr

/-- `_generate_response`, modelled by its deterministic fallback: the emitted
text is the situation description (the claims never depend on wording). -/
def genResponse (situation : String) : String := situation

/-! ## Node helpers (`graph/nodes.py`) -/

def Msg.humanContent? : Msg → Option String
  | .human c => some c
  | .ai _ => none

def latestHumanContent (s : GraphState) : String :=
  (s.messages.reverse.findSome? Msg.humanContent?).getD ""

/-- `_is_placeholder_recipient` (identical local function in
`_merge_email_draft` and `_resolve_recipients`). -/
def isPlaceholderRecipient (value : String) : Bool :=
  let token := pyLower (pyStrip value)
  token = "" ||
    (token.data.head? = some '<' && token.data.getLast? = some '>') ||
    ["person_name_or_email", "<person_name_or_email>", "recipient_name_or_email",
     "<recipient_name_or_email>", "recipient", "<recipient>"].contains token

/-- `_merge_email_draft`. -/
def mergeEmailDraft (existing : Draft) (update : EmailDraftUpdate) : Draft :=
  let d1 :=
    match update.«to» with
    | some ts =>
      if ts.isEmpty then existing
      else
        let cleaned_to := (ts.filter
          (fun t => pyStrip t ≠ "" && !isPlaceholderRecipient t)).map pyStrip
        if cleaned_to.isEmpty then existing else { existing with «to» := cleaned_to }
    | none => existing
  let d2 :=
    match update.subject with
    | some sub => if sub ≠ "" && pyStrip sub ≠ "" then { d1 with subject := pyStrip sub } else d1
    | none => d1
  match update.body with
  | some b => if b ≠ "" && pyStrip b ≠ "" then { d2 with body := pyStrip b } else d2
  | none => d2

/-- `_autofill_email_draft` (the subject suggestion comes from the external
capability; `none` covers both a null subject and a failed call). -/
def autofillEmailDraft (o : Oracle) (d : Draft) : Draft :=
  if d.subject ≠ "" then d
  else
    match o.autofillSubject with
    | some sub => if sub ≠ "" && pyStrip sub ≠ "" then { d with subject := pyStrip sub } else d
    | none => d

/-- `_polish_email_draft`. -/
def polishEmailDraft (o : Oracle) (d : Draft) : Draft :=
  let d1 :=
    match o.polishSubject with
    | some sub => if sub ≠ "" && pyStrip sub ≠ "" then { d with subject := pyStrip sub } else d
    | none => d
  match o.polishBody with
  | some b => if b ≠ "" && pyStrip b ≠ "" then { d1 with body := pyStrip b } else d1
  | none => d1

/-- The two error shapes `_resolve_recipients` can report (the wording is
generated; the shape and the candidate list are the code's). -/
inductive ResolveErr where
  | multiMatch (options : List String)
  | noRecipient
  deriving Repr, DecidableEq

def contactOption (c : Contact) : String := c.name ++ " <" ++ c.email ++ ">"

def errText : ResolveErr → String
  | .multiMatch _ =>
    genResponse "Multiple contacts matched. Present the options and ask the user to pick one."
  | .noRecipient =>
    genResponse "No recipient could be resolved. Ask the user to provide a recipient email or name."

/-- The token loop of `_resolve_recipients`. -/
def resolveLoop (contacts : List Contact) (acc : List String) :
    List String → List String × Option ResolveErr × Option String
  | [] => if acc.isEmpty then ([], some .noRecipient, none) else (acc, none, none)
  | raw :: rest =>
    let token := pyStrip raw
    if token = "" then resolveLoop contacts acc rest
    else if isPlaceholderRecipient token then resolveLoop contacts acc rest
    else if is_valid_email token then resolveLoop contacts (acc ++ [token]) rest
    else
      match search_contacts contacts token none with
      | [] => ([], none, some token)
      | [m] => resolveLoop contacts (acc ++ [m.email]) rest
      | ms => ([], some (.multiMatch ((ms.take 5).map contactOption)), none)

/-- `_resolve_recipients`: returns `(resolved, error, capture_needed)`. -/
def resolveRecipients (contacts : List Contact) (email_details : EmailContent) :
    List String × Option ResolveErr × Option String :=
  resolveLoop contacts [] email_details.«to»

/-- Python `str.title()` restricted to ASCII letters: uppercase a letter that
starts a letter run, lowercase the rest. -/
def pyTitleAux : List Char → Bool → List Char
  | [], _ => []
  | c :: cs, prevCased =>
    if c.isAlpha then
      (if prevCased then c.toLower else c.toUpper) :: pyTitleAux cs true
    else c :: pyTitleAux cs false

def pyTitle (s : String) : String := ⟨pyTitleAux s.data false⟩

/-- `local_part.replace("_", ".").replace("-", ".").split(".")`, keeping only
non-empty tokens. -/
def localTokens (localp : String) : List String :=
  (((localp.data.map (fun c => if c = '_' || c = '-' then '.' else c)).splitOnP
    (· = '.')).filter (· ≠ [])).map (⟨·⟩)

def labelWords : List String :=
  ["fname", "lname", "email", "mail", "phone", "phno", "number", "mobile"]

structure ParsedContact where
  first_name : String
  last_name : String
  email : String
  phone : String
  deriving Repr, DecidableEq

/-- `_parse_contact_details`: extraction (from the oracle; `none` is a failed
call, leaving every field empty), label-word repair, name derivation from the
email local part, then the completeness check. -/
def parseContactDetails (o : Oracle) (user_text : String) : Except String ParsedContact :=
  let text := pyStrip user_text
  if text = "" then
    .error (genResponse "User provided no text for contact details. Ask them to provide first name, last name, email, and phone number.")
  else
    let first0 :=
      match o.parsedContact with
      | some p => pyStrip (p.first_name.getD "")
      | none => ""
    let last0 :=
      match o.parsedContact with
      | some p => pyStrip (p.last_name.getD "")
      | none => ""
    let email :=
      match o.parsedContact with
      | some p => pyStrip (p.email.getD "")
      | none => ""
    let phone :=
      match o.parsedContact with
      | some p => pyStrip (p.phone.getD "")
      | none => ""
    let first1 := if labelWords.contains (pyLower first0) then "" else first0
    let last1 := if labelWords.contains (pyLower last0) then "" else last0
    let fl :=
      if email ≠ "" && email.data.contains '@' && (first1 = "" || last1 = "") then
        match localTokens (localPart email) with
        | t0 :: t1 :: _ =>
          ((if first1 = "" then pyTitle (pyStrip t0) else first1),
           (if last1 = "" then pyTitle (pyStrip t1) else last1))
        | [t0] => ((if first1 = "" then pyTitle (pyStrip t0) else first1), last1)
        | [] => (first1, last1)
      else (first1, last1)
    if fl.1 = "" || fl.2 = "" || email = "" || phone = "" then
      .error (genResponse "Some contact details are missing. Tell the user which fields are still needed and give a brief example format.")
    else
      .ok ⟨fl.1, fl.2, email, phone⟩

/-- The recipient-substitution loop of `_handle_contact_capture_details`:
replace the first draft token equal to the unresolved query (normalized) with
the saved email, appending when nothing matches. -/
def replaceFirstToken (recipients : List String) (query newEmail : String) : List String :=
  match recipients with
  | [] => [newEmail]
  | r :: rest =>
    if pyLower (pyStrip r) = query then newEmail :: rest
    else r :: replaceFirstToken rest query newEmail

/-- `_lookup_contact_details`: returns `(message, found)`. -/
def lookupContactDetails (contacts : List Contact) (query : String) : String × Bool :=
  let q := pyStrip query
  if q = "" then
    (genResponse "User asked for contact details but did not specify who. Ask them to provide a name or email.", true)
  else
    let found :=
      if is_valid_email q then contacts.filter (fun c => pyLower c.email = pyLower q)
      else search_contacts contacts q none
    match found with
    | [] => (genResponse "No contact found. Inform the user.", false)
    | [_] => (genResponse "Display the full details of this contact to the user.", true)
    | _ => (genResponse "Multiple contacts found. Display all their details and let the user know.", true)

/-- The early-recipient-validation loop of `_build_email_flow_response`:
the first non-email token with zero or several matches short-circuits. -/
def emailFlowEarlyCheck (contacts : List Contact) (merged : Draft) :
    List String → Option Update
  | [] => none
  | raw :: rest =>
    let token := pyStrip raw
    if token = "" || is_valid_email token then
      emailFlowEarlyCheck contacts merged rest
    else
      match search_contacts contacts token none with
      | [] =>
        some
          { email_draft := some merged,
            pending_contact_capture :=
              some (some { query := token, awaiting_create_confirmation := true }),
            staged_tasks := some [],
            pending_tasks := some [],
            messages := [.ai (genResponse "Recipient was not found in contacts. Ask the user if they want to create a new contact or provide a different recipient.")] }
      | [_] => emailFlowEarlyCheck contacts merged rest
      | _ =>
        some
          { email_draft := some merged,
            pending_tasks := some [],
            messages := [.ai (genResponse "Multiple contacts matched. Present the options and ask the user to pick one.")] }

/-- The confirmation-summary message (`_summary`). -/
def summaryText : String :=
  genResponse "Present the complete email and calendar event details for user confirmation. Ask the user to reply confirm to execute or cancel to abort."

/-- `_build_email_flow_response`. -/
def buildEmailFlowResponse (contacts : List Contact) (o : Oracle) (merged : Draft) : Update :=
  match emailFlowEarlyCheck contacts merged merged.«to» with
  | some u => u
  | none =>
    if merged.«to».isEmpty || merged.subject = "" || merged.body = "" then
      { email_draft := some merged,
        pending_tasks := some [],
        messages := [.ai (genResponse "Collecting email details. Some fields are filled, others are still needed. Acknowledge what was provided and ask for the remaining fields.")] }
    else
      let polished := polishEmailDraft o merged
      let candidate : EmailContent := ⟨polished.«to», polished.subject, polished.body⟩
      match resolveRecipients contacts candidate with
      | (_, _, some q0) =>
        let q := pyStrip q0
        { email_draft := some polished,
          pending_contact_capture :=
            some (some { query := q, awaiting_create_confirmation := true }),
          staged_tasks := some [],
          pending_tasks := some [],
          messages := [.ai (genResponse "Recipient was not found in contacts. Ask the user if they want to create a new contact for this person.")] }
      | (_, some err, none) =>
        { email_draft := some polished,
          staged_tasks := some [],
          pending_tasks := some [],
          messages := [.ai (errText err)] }
      | (resolved, none, none) =>
        let final_email : EmailContent := ⟨resolved, candidate.subject, candidate.body⟩
        let base : Update :=
          { email_draft := some {},
            pending_contact_capture := some none,
            email_details := some (some final_email),
            staged_tasks := some [.email],
            pending_tasks := some [],
            awaiting_confirmation := some true,
            orchestrator_decision := some "send_email" }
        let meeting := o.meeting
        let upd :=
          if meeting.create_calendar_event && meeting.title.getD "" ≠ "" &&
              meeting.start_time.isSome && meeting.end_time.isSome then
            { base with
              calendar_details := some (some
                { title := meeting.title.getD "",
                  start_time := meeting.start_time.getD 0,
                  end_time := meeting.end_time.getD 0,
                  attendees :=
                    if (meeting.attendees.getD []).isEmpty then final_email.«to»
                    else meeting.attendees.getD [],
                  location := meeting.location,
                  description :=
                    if meeting.description.getD "" = "" then some final_email.body
                    else meeting.description }),
              staged_tasks := some [.email, .calendar],
              orchestrator_decision := some "both" }
          else base
        { upd with messages := [.ai summaryText] }

/-- `_handle_contact_capture_details`: parse, save, then either finish a
lookup-only capture or substitute the saved email into the suspended draft
and resume the email flow.  The updated storage is threaded alongside. -/
def handleContactCaptureDetails (rows : List Row) (o : Oracle) (s : GraphState)
    (capture : Capture) (user_message : String) : Update × List Row :=
  match parseContactDetails o user_message with
  | .error msg => ({ pending_tasks := some [], messages := [.ai msg] }, rows)
  | .ok parsed =>
    match save_contact rows parsed.first_name parsed.last_name parsed.email parsed.phone with
    | .error _ =>
      ({ pending_tasks := some [],
         messages := [.ai (genResponse "Failed to save a new contact. Inform the user about the error.")] }, rows)
    | .ok (saved, rows2) =>
      if capture.source = some "lookup_only" then
        ({ pending_tasks := some [],
           pending_contact_capture := some none,
           messages := [.ai (genResponse "Contact was saved successfully. Show the user the saved details.")] }, rows2)
      else
        let query := pyLower (pyStrip capture.query)
        let draft := s.email_draft
        let draft2 := { draft with «to» := replaceFirstToken draft.«to» query saved.email }
        let response := buildEmailFlowResponse (loadRows rows2) o draft2
        ({ response with
            messages :=
              .ai (genResponse "Contact saved successfully. Briefly confirm to the user.")
                :: response.messages,
            pending_contact_capture := some none }, rows2)

/-- Steps 4–7 of the per-turn decision order: conversational routing, the
slot-filling email flow, contact lookup, then the one-shot full planner.
Reached directly when no pending state exists, or by fall-through when a
contact-capture decision is `alternate_recipient` without a resolvable
candidate or `other`. -/
def orchestratorMainRouting (rows : List Row) (o : Oracle) (s : GraphState) :
    Update × List Row :=
  if o.convRoute.action = .greet then
    ({ pending_tasks := some [],
       pending_contact_capture := some none,
       messages := [.ai (genResponse "User greeted the assistant. Respond warmly and offer help with email and calendar tasks.")] }, rows)
  else
    let existing_draft := s.email_draft
    let slot_update := o.slotUpdate
    if slot_update.intent = "send_email" || draftTruthy existing_draft then
      let merged := mergeEmailDraft existing_draft slot_update
      let merged2 := autofillEmailDraft o merged
      (buildEmailFlowResponse (loadRows rows) o merged2, rows)
    else if o.lookup.intent = "lookup_contact" then
      let query := pyStrip (o.lookup.query.getD "")
      let lk := lookupContactDetails (loadRows rows) query
      if !lk.2 && query ≠ "" then
        ({ pending_tasks := some [],
           pending_contact_capture := some (some
             { query := query, awaiting_create_confirmation := true,
               source := some "lookup_only" }),
           messages := [.ai (genResponse "Contact was not found. Inform the user and ask if they want to create a new contact for this person.")] }, rows)
      else
        ({ pending_tasks := some [], messages := [.ai lk.1] }, rows)
    else
      let plan := o.plan
      let tasks : List TaskKind :=
        (if (plan.action = "send_email" || plan.action = "both") &&
            plan.email_details.isSome then [.email] else []) ++
        (if (plan.action = "create_calendar_event" || plan.action = "both") &&
            plan.calendar_details.isSome then [.calendar] else [])
      let updates : Update :=
        { orchestrator_decision := some plan.action,
          email_details := some plan.email_details,
          email_draft := some {},
          calendar_details := some plan.calendar_details,
          pending_tasks := some [],
          staged_tasks := some tasks,
          awaiting_confirmation := some false }
      if plan.action = "ask_for_clarification" then
        let cm := plan.clarification_message.getD ""
        let msg := if cm = "" then
            genResponse "Could not understand the request. Ask the user to clarify."
          else cm
        ({ updates with messages := [.ai msg] }, rows)
      else if plan.action = "none" then
        ({ updates with messages := [.ai (genResponse "The message is not about email or calendar. Let the user know what you can help with.")] }, rows)
      else
        match plan.email_details, tasks.contains .email with
        | some ed, true =>
          match resolveRecipients (loadRows rows) ed with
          | (_, _, some q0) =>
            let q := pyStrip q0
            ({ updates with
                pending_contact_capture := some (some
                  { query := q, awaiting_create_confirmation := true }),
                staged_tasks := some [],
                messages := [.ai (genResponse "Recipient was not found in contacts. Ask the user if they want to create a new contact for this person.")] }, rows)
          | (_, some err, none) =>
            ({ updates with staged_tasks := some [], messages := [.ai (errText err)] }, rows)
          | (resolved, none, none) =>
            let updates2 :=
              { updates with email_details := some (some ⟨resolved, ed.subject, ed.body⟩) }
            let updates3 :=
              { updates2 with awaiting_confirmation := some true, messages := [.ai summaryText] }
            (updates3, rows)
        | _, _ =>
          ({ updates with
              awaiting_confirmation := some true,
              messages := [.ai summaryText] }, rows)

/-- The `alternate_recipient` arm of the contact-creation decision (only
outside `lookup_only` captures): resume the email flow when the supplied
candidate is a literal email or a unique directory match, otherwise fall
through. -/
def altRecipientResponse (rows : List Row) (o : Oracle) (s : GraphState)
    (capture : Capture) (decision : PendingStateRoute) (user_message : String) :
    Option Update :=
  if capture.source ≠ some "lookup_only" && decision.action = .alternate_recipient then
    let cand0 := decision.recipient_candidate.getD ""
    let candidate := pyStrip (if cand0 = "" then user_message else cand0)
    if candidate ≠ "" then
      if is_valid_email candidate then
        let draft := { s.email_draft with «to» := [candidate] }
        some { buildEmailFlowResponse (loadRows rows) o draft with
                pending_contact_capture := some none }
      else
        match search_contacts (loadRows rows) candidate none with
        | [m] =>
          let draft := { s.email_draft with «to» := [m.email] }
          some { buildEmailFlowResponse (loadRows rows) o draft with
                  pending_contact_capture := some none }
        | _ => none
    else none
  else none

/-- `orchestrator_node`. -/
def orchestrator_node (rows : List Row) (o : Oracle) (s : GraphState) :
    Update × List Row :=
  let user_message := latestHumanContent s
  if user_message = "" then
    ({ messages := [.ai (genResponse "User sent an empty message. Ask them to provide a request for email or calendar tasks.")],
       pending_tasks := some [] }, rows)
  else if s.awaiting_confirmation then
    match o.execRoute.action with
    | .confirm =>
      ({ awaiting_confirmation := some false, pending_tasks := some s.staged_tasks }, rows)
    | .cancel =>
      ({ awaiting_confirmation := some false,
         staged_tasks := some [],
         pending_tasks := some [],
         messages := [.ai (genResponse "User cancelled the pending email or calendar action. Acknowledge the cancellation.")] }, rows)
    | .pause =>
      ({ pending_tasks := some [],
         messages := [.ai (genResponse "User sent an ambiguous message while awaiting confirmation. Gently remind them to confirm or cancel.")] }, rows)
    | _ =>
      ({ pending_tasks := some [],
         messages := [.ai (genResponse "Ask the user to confirm or cancel the pending action.")] }, rows)
  else
    match s.pending_contact_capture with
    | some capture =>
      if capture.awaiting_create_confirmation then
        let decision := o.captureRoute
        if decision.action = .provide_details then
          handleContactCaptureDetails rows o s
            { capture with awaiting_create_confirmation := false } user_message
        else if decision.action = .create then
          ({ pending_tasks := some [],
             pending_contact_capture := some (some
               { query := pyStrip capture.query, awaiting_create_confirmation := false,
                 source := capture.source }),
             messages := [.ai (genResponse "User confirmed they want to create a new contact. Ask them to provide first name, last name, email, and phone number.")] }, rows)
        else if decision.action = .cancel then
          ({ pending_tasks := some [],
             staged_tasks := some [],
             pending_contact_capture := some none,
             messages := [.ai (genResponse "User declined to create a new contact.")] }, rows)
        else
          match altRecipientResponse rows o s capture decision user_message with
          | some u => (u, rows)
          | none =>
            if decision.action = .pause then
              ({ pending_tasks := some [],
                 staged_tasks := some [],
                 pending_contact_capture := some none,
                 messages := [.ai (genResponse "User sent a greeting while in contact creation flow. Pause the flow, greet them, and offer help with email or calendar.")] }, rows)
            else
              orchestratorMainRouting rows o s
      else
        handleContactCaptureDetails rows o s capture user_message
    | none => orchestratorMainRouting rows o s

/-- `send_email_node`; the provider outcome comes from the dispatch
capability (`o.sendEmailResult`). -/
def send_email_node (o : Oracle) (s : GraphState) : Update :=
  match s.email_details with
  | none =>
    { messages := [.ai (genResponse "Email details are missing and the email cannot be sent. Inform the user.")] }
  | some _ =>
    let msg :=
      match o.sendEmailResult with
      | .ok _ => genResponse "Email was sent successfully. Inform the user."
      | .error _ => genResponse "Email sending failed. Inform the user about the error."
    { messages := [.ai msg],
      pending_tasks := some (s.pending_tasks.filter (· ≠ .email)) }

/-- `create_calendar_event_node`. -/
def create_calendar_event_node (o : Oracle) (s : GraphState) : Update :=
  match s.calendar_details with
  | none =>
    { messages := [.ai (genResponse "Calendar event details are missing and the event cannot be created. Inform the user.")] }
  | some _ =>
    let msg :=
      match o.calendarResult with
      | .ok _ => genResponse "Calendar event was created successfully. Inform the user."
      | .error _ => genResponse "Calendar event creation failed. Inform the user about the error."
    { messages := [.ai msg],
      pending_tasks := some (s.pending_tasks.filter (· ≠ .calendar)) }

/-- `final_response_node`. -/
def final_response_node (s : GraphState) : Update :=
  let lastAi := s.messages.reverse.findSome? (fun m =>
    match m with
    | .ai c => if c ≠ "" then some c else none
    | .human _ => none)
  match lastAi with
  | some c => { final_response := some c }
  | none =>
    { final_response := some (genResponse "Processing is complete but there is no specific result to show. Let the user know.") }

/-! ## Graph wiring (`graph/builder.py`) -/

inductive Node where
  | orchestrator
  | send_email
  | create_calendar_event
  | final_response
  deriving Repr, DecidableEq

def decide_after_orchestrator (s : GraphState) : Node :=
  if s.pending_tasks.contains .email then .send_email
  else if s.pending_tasks.contains .calendar then .create_calendar_event
  else .final_response

def after_email (s : GraphState) : Node :=
  if s.pending_tasks.contains .calendar then .create_calendar_event
  else .final_response

def addHuman (s : GraphState) (u : String) : GraphState :=
  { s with messages := s.messages ++ [.human u] }

/-- The conversation state right after the orchestrator node of a turn whose
incoming user message is `u`, with the updated contact storage. -/
def postOrchestrator (rows : List Row) (o : Oracle) (s : GraphState) (u : String) :
    GraphState × List Row :=
  let s0 := addHuman s u
  let r := orchestrator_node rows o s0
  (applyUpdate s0 r.1, r.2)

/-- Execute the conditional edges after the orchestrator: the visited node
sequence of the rest of the turn, and the resulting state. -/
def dispatchPhase (o : Oracle) (s1 : GraphState) : List Node × GraphState :=
  match decide_after_orchestrator s1 with
  | .send_email =>
    let s2 := applyUpdate s1 (send_email_node o s1)
    (match after_email s2 with
     | .create_calendar_event =>
       let s3 := applyUpdate s2 (create_calendar_event_node o s2)
       ([.send_email, .create_calendar_event, .final_response],
        applyUpdate s3 (final_response_node s3))
     | _ =>
       ([.send_email, .final_response], applyUpdate s2 (final_response_node s2)))
  | .create_calendar_event =>
    let s2 := applyUpdate s1 (create_calendar_event_node o s1)
    ([.create_calendar_event, .final_response], applyUpdate s2 (final_response_node s2))
  | _ => ([.final_response], applyUpdate s1 (final_response_node s1))

/-- One full turn of the compiled graph. -/
def runTurn (rows : List Row) (o : Oracle) (s : GraphState) (u : String) :
    GraphState × List Row :=
  let pr := postOrchestrator rows o s u
  ((dispatchPhase o pr.1).2, pr.2)

/-- The nodes a turn visits, in execution order. -/
def turnTrace (rows : List Row) (o : Oracle) (s : GraphState) (u : String) : List Node :=
  Node.orchestrator :: (dispatchPhase o (postOrchestrator rows o s u).1).1

/-! ## Claim C3 — draft-merge monotonicity -/

theorem mergeEmailDraft_to_cases (e : Draft) (u : EmailDraftUpdate) :
    (mergeEmailDraft e u).«to» = e.«to» ∨
      ((mergeEmailDraft e u).«to» ≠ [] ∧ ∃ ts, u.«to» = some ts ∧
        (mergeEmailDraft e u).«to» =
          (ts.filter (fun t => pyStrip t ≠ "" && !isPlaceholderRecipient t)).map pyStrip) := by
  unfold mergeEmailDraft
  cases hu : u.«to» with
  | none =>
    left
    cases u.subject <;> cases u.body <;> dsimp only <;> split_ifs <;> rfl
  | some ts =>
    by_cases hts : ts.isEmpty
    · left
      simp only [hts, if_true]
      cases u.subject <;> cases u.body <;> dsimp only <;> split_ifs <;> rfl
    · by_cases hc : ((ts.filter (fun t => pyStrip t ≠ "" && !isPlaceholderRecipient t)).map pyStrip).isEmpty
      · left
        simp only [hts, hc, if_false, if_true]
        cases u.subject <;> cases u.body <;> dsimp only <;> split_ifs <;> rfl
      · right
        refine ⟨?_, ts, rfl, ?_⟩ <;>
          simp only [hts, hc, if_false] <;>
          cases u.subject <;> cases u.body <;> dsimp only <;> split_ifs <;>
          simp_all [List.isEmpty_iff]

theorem mergeEmailDraft_subject_cases (e : Draft) (u : EmailDraftUpdate) :
    (mergeEmailDraft e u).subject = e.subject ∨ (mergeEmailDraft e u).subject ≠ "" := by
  unfold mergeEmailDraft
  cases hu : u.subject with
  | none =>
    left
    cases u.«to» <;> cases u.body <;> dsimp only <;> split_ifs <;> rfl
  | some sub =>
    by_cases hs : sub ≠ "" ∧ pyStrip sub ≠ ""
    · right
      cases u.«to» <;> cases u.body <;> dsimp only <;> split_ifs <;> simp_all
    · left
      cases u.«to» <;> cases u.body <;> dsimp only <;> split_ifs <;> simp_all

theorem mergeEmailDraft_body_cases (e : Draft) (u : EmailDraftUpdate) :
    (mergeEmailDraft e u).body = e.body ∨ (mergeEmailDraft e u).body ≠ "" := by
  unfold mergeEmailDraft
  cases hu : u.body with
  | none =>
    left
    cases u.«to» <;> cases u.subject <;> dsimp only <;> split_ifs <;> rfl
  | some b =>
    by_cases hb : b ≠ "" ∧ pyStrip b ≠ ""
    · right
      cases u.«to» <;> cases u.subject <;> dsimp only <;> split_ifs <;> simp_all
    · left
      cases u.«to» <;> cases u.subject <;> dsimp only <;> split_ifs <;> simp_all

theorem mergeEmailDraft_to_nonempty (e : Draft) (u : EmailDraftUpdate)
    (h : e.«to» ≠ []) : (mergeEmailDraft e u).«to» ≠ [] := by
  rcases mergeEmailDraft_to_cases e u with hc | hc
  · rw [hc]; exact h
  · exact hc.1

theorem mergeEmailDraft_subject_nonempty (e : Draft) (u : EmailDraftUpdate)
    (h : e.subject ≠ "") : (mergeEmailDraft e u).subject ≠ "" := by
  rcases mergeEmailDraft_subject_cases e u with hc | hc
  · rw [hc]; exact h
  · exact hc

theorem mergeEmailDraft_body_nonempty (e : Draft) (u : EmailDraftUpdate)
    (h : e.body ≠ "") : (mergeEmailDraft e u).body ≠ "" := by
  rcases mergeEmailDraft_body_cases e u with hc | hc
  · rw [hc]; exact h
  · exact hc

/-- **C3** (confirmed).  Draft-merge monotonicity: a field of the existing
draft that is populated (non-empty `to` list / non-empty `subject` / `body`)
is still populated after `_merge_email_draft`, for a single merge and for any
`foldl` sequence of merges; and the `to` field is overwritten only when the
extracted recipient list still has at least one cleaned, non-placeholder
token after filtering (the new value being exactly that cleaned list). -/
theorem C3_draft_merge_monotonicity (existing : Draft) (update : EmailDraftUpdate) :
    ((existing.«to» ≠ [] → (mergeEmailDraft existing update).«to» ≠ []) ∧
      (existing.subject ≠ "" → (mergeEmailDraft existing update).subject ≠ "") ∧
      (existing.body ≠ "" → (mergeEmailDraft existing update).body ≠ "")) ∧
    ((mergeEmailDraft existing update).«to» ≠ existing.«to» →
      ∃ ts, update.«to» = some ts ∧
        (mergeEmailDraft existing update).«to» =
          (ts.filter (fun t => pyStrip t ≠ "" && !isPlaceholderRecipient t)).map pyStrip ∧
        (mergeEmailDraft existing update).«to» ≠ []) ∧
    (∀ updates : List EmailDraftUpdate,
      (existing.«to» ≠ [] → (updates.foldl mergeEmailDraft existing).«to» ≠ []) ∧
      (existing.subject ≠ "" → (updates.foldl mergeEmailDraft existing).subject ≠ "") ∧
      (existing.body ≠ "" → (updates.foldl mergeEmailDraft existing).body ≠ "")) := by
  refine ⟨⟨mergeEmailDraft_to_nonempty existing update,
    mergeEmailDraft_subject_nonempty existing update,
    mergeEmailDraft_body_nonempty existing update⟩, ?_, ?_⟩
  · intro hne
    rcases mergeEmailDraft_to_cases existing update with hc | hc
    · exact absurd hc hne
    · obtain ⟨hnil, ts, hts, heq⟩ := hc
      exact ⟨ts, hts, heq, hnil⟩
  · intro updates
    induction updates generalizing existing with
    | nil => exact ⟨id, id, id⟩
    | cons u us ih =>
      refine ⟨?_, ?_, ?_⟩ <;> intro h <;> simp only [List.foldl_cons]
      · exact (ih (mergeEmailDraft existing u)).1 (mergeEmailDraft_to_nonempty existing u h)
      · exact (ih (mergeEmailDraft existing u)).2.1 (mergeEmailDraft_subject_nonempty existing u h)
      · exact (ih (mergeEmailDraft existing u)).2.2 (mergeEmailDraft_body_nonempty existing u h)

/-- Witness for C3 at a concrete populated draft and a placeholder-only,
empty-valued update: every populated field survives. -/
theorem C3_draft_merge_monotonicity_witness :
    (mergeEmailDraft ⟨["ann"], "s", "b"⟩
        { intent := "send_email", «to» := some ["<recipient>", " "],
          subject := some "", body := some " " }).«to» ≠ [] ∧
      (mergeEmailDraft ⟨["ann"], "s", "b"⟩
        { intent := "send_email", «to» := some ["<recipient>", " "],
          subject := some "", body := some " " }).subject ≠ "" := by
  have h := C3_draft_merge_monotonicity ⟨["ann"], "s", "b"⟩
    { intent := "send_email", «to» := some ["<recipient>", " "],
      subject := some "", body := some " " }
  exact ⟨h.1.1 (by decide), h.1.2.1 (by decide)⟩

/-! ## Claim C2 — recipient resolver -/

/-- A token the resolver loop skips without consulting the directory. -/
def tokenSkipped (raw : String) : Bool :=
  pyStrip raw = "" || isPlaceholderRecipient (pyStrip raw)

/-- A token that does not short-circuit the resolver loop: skipped, a literal
email, or a unique directory match. -/
def tokenNonBlocking (contacts : List Contact) (raw : String) : Bool :=
  tokenSkipped raw || is_valid_email (pyStrip raw) ||
    (search_contacts contacts (pyStrip raw) none).length = 1

/-- Exactly one of the three outputs of `_resolve_recipients` is active. -/
def resolveOutcomeExclusive (r : List String × Option ResolveErr × Option String) : Prop :=
  (r.1 ≠ [] ∧ r.2.1 = none ∧ r.2.2 = none) ∨
    (r.1 = [] ∧ r.2.1.isSome ∧ r.2.2 = none) ∨
    (r.1 = [] ∧ r.2.1 = none ∧ r.2.2.isSome)

theorem resolveLoop_append_nonBlocking (contacts : List Contact) :
    ∀ (pre : List String) (acc : List String),
      (∀ x ∈ pre, tokenNonBlocking contacts x = true) →
      ∃ acc2, ∀ rest, resolveLoop contacts acc (pre ++ rest) = resolveLoop contacts acc2 rest
  | [], acc, _ => ⟨acc, fun _ => rfl⟩
  | x :: xs, acc, h => by
    have hx := h x (by simp)
    have hxs : ∀ y ∈ xs, tokenNonBlocking contacts y = true :=
      fun y hy => h y (List.mem_cons_of_mem _ hy)
    simp only [tokenNonBlocking, tokenSkipped, Bool.or_eq_true, decide_eq_true_eq] at hx
    by_cases h1 : pyStrip x = ""
    · obtain ⟨acc2, hacc2⟩ := resolveLoop_append_nonBlocking contacts xs acc hxs
      exact ⟨acc2, fun rest => by
        rw [List.cons_append]
        simp only [resolveLoop, h1, if_true]
        exact hacc2 rest⟩
    · by_cases h2 : isPlaceholderRecipient (pyStrip x) = true
      · obtain ⟨acc2, hacc2⟩ := resolveLoop_append_nonBlocking contacts xs acc hxs
        exact ⟨acc2, fun rest => by
          rw [List.cons_append]
          simp only [resolveLoop, h1, h2, if_true, if_false]
          exact hacc2 rest⟩
      · by_cases h3 : is_valid_email (pyStrip x) = true
        · obtain ⟨acc2, hacc2⟩ :=
            resolveLoop_append_nonBlocking contacts xs (acc ++ [pyStrip x]) hxs
          exact ⟨acc2, fun rest => by
            rw [List.cons_append]
            simp only [resolveLoop, h1, h2, h3, if_true, if_false]
            exact hacc2 rest⟩
        · have h4 : (search_contacts contacts (pyStrip x) none).length = 1 := by
            rcases hx with ((c1 | c2) | c3) | c4
            · exact absurd c1 h1
            · exact absurd c2 h2
            · exact absurd c3 h3
            · exact c4
          obtain ⟨m, hm⟩ := List.length_eq_one.mp h4
          obtain ⟨acc2, hacc2⟩ :=
            resolveLoop_append_nonBlocking contacts xs (acc ++ [m.email]) hxs
          exact ⟨acc2, fun rest => by
            rw [List.cons_append]
            simp only [resolveLoop, h1, h2, h3, if_true, if_false, hm]
            exact hacc2 rest⟩

theorem resolveLoop_exclusive (contacts : List Contact) :
    ∀ (l acc : List String), resolveOutcomeExclusive (resolveLoop contacts acc l)
  | [], acc => by
    simp only [resolveLoop, resolveOutcomeExclusive]
    by_cases ha : acc.isEmpty
    · right; left; simp [ha]
    · left; simp_all [List.isEmpty_iff]
  | raw :: rest, acc => by
    simp only [resolveLoop]
    by_cases h1 : pyStrip raw = ""
    · simpa [h1] using resolveLoop_exclusive contacts rest acc
    · by_cases h2 : isPlaceholderRecipient (pyStrip raw) = true
      · simpa [h1, h2] using resolveLoop_exclusive contacts rest acc
      · by_cases h3 : is_valid_email (pyStrip raw) = true
        · simpa [h1, h2, h3] using
            resolveLoop_exclusive contacts rest (acc ++ [pyStrip raw])
        · simp only [h1, h2, h3, if_false, if_true, Bool.false_eq_true]
          cases hs : search_contacts contacts (pyStrip raw) none with
          | nil => right; right; simp [resolveOutcomeExclusive]
          | cons m ms =>
            cases ms with
            | nil =>
              simpa [h1, h2, h3, hs] using
                resolveLoop_exclusive contacts rest (acc ++ [m.email])
            | cons m2 ms2 => right; left; simp [resolveOutcomeExclusive]

theorem resolveLoop_all_skipped (contacts : List Contact) :
    ∀ l : List String, (∀ x ∈ l, tokenSkipped x = true) →
      resolveLoop contacts [] l = ([], some .noRecipient, none)
  | [], _ => by simp [resolveLoop]
  | raw :: rest, h => by
    have hx := h raw (by simp)
    have hrest := resolveLoop_all_skipped contacts rest
      (fun y hy => h y (List.mem_cons_of_mem _ hy))
    simp only [tokenSkipped, Bool.or_eq_true, decide_eq_true_eq] at hx
    rcases hx with h1 | h2
    · simpa [resolveLoop, h1] using hrest
    · by_cases h1 : pyStrip raw = ""
      · simpa [resolveLoop, h1] using hrest
      · simpa [resolveLoop, h1, h2] using hrest

/-- **C2** (confirmed).  `_resolve_recipients` produces exactly one of
{resolved list, error message, capture signal}; with every earlier token
non-blocking, the first blocking token decides the outcome: zero directory
matches yield the capture signal carrying that (stripped) token with an empty
resolved list and no error, two or more matches yield the disambiguation
error listing at most the first 5 candidates and no capture signal; and a
loop that only skips tokens ends in the provide-a-recipient error. -/
theorem C2_resolver_first_blocking (contacts : List Contact) (ed : EmailContent) :
    resolveOutcomeExclusive (resolveRecipients contacts ed) ∧
    (∀ pre t post, ed.«to» = pre ++ t :: post →
      (∀ x ∈ pre, tokenNonBlocking contacts x = true) →
      pyStrip t ≠ "" → isPlaceholderRecipient (pyStrip t) = false →
      is_valid_email (pyStrip t) = false →
      ((search_contacts contacts (pyStrip t) none = [] →
        resolveRecipients contacts ed = ([], none, some (pyStrip t))) ∧
       (2 ≤ (search_contacts contacts (pyStrip t) none).length →
        resolveRecipients contacts ed =
          ([], some (.multiMatch
            (((search_contacts contacts (pyStrip t) none).take 5).map contactOption)),
           none) ∧
        (((search_contacts contacts (pyStrip t) none).take 5).map contactOption).length ≤ 5))) ∧
    ((∀ x ∈ ed.«to», tokenSkipped x = true) →
      resolveRecipients contacts ed = ([], some .noRecipient, none)) := by
  refine ⟨resolveLoop_exclusive contacts ed.«to» [], ?_, resolveLoop_all_skipped contacts ed.«to»⟩
  intro pre t post hsplit hpre ht1 ht2 ht3
  obtain ⟨acc2, hacc2⟩ := resolveLoop_append_nonBlocking contacts pre [] hpre
  have hmain : resolveRecipients contacts ed = resolveLoop contacts acc2 (t :: post) := by
    rw [resolveRecipients, hsplit, hacc2]
  constructor
  · intro hz
    rw [hmain]
    simp [resolveLoop, ht1, ht2, ht3, hz]
  · intro hge
    cases hs : search_contacts contacts (pyStrip t) none with
    | nil => rw [hs] at hge; simp at hge
    | cons m ms =>
      cases ms with
      | nil => rw [hs] at hge; simp at hge
      | cons m2 ms2 =>
        constructor
        · rw [hmain]
          simp [resolveLoop, ht1, ht2, ht3, hs]
        · simp [List.length_take]

/-- Witness for C2: a directory with one contact, a recipient list whose
first token is a literal email and whose second token matches nothing:
the capture signal carries the second token. -/
theorem C2_resolver_first_blocking_witness :
    resolveRecipients [⟨"Jane", "Doe", "jane@x.com", "1"⟩]
        ⟨["bob@y.com", "zed"], "s", "b"⟩ = ([], none, some "zed") := by
  have h := C2_resolver_first_blocking [⟨"Jane", "Doe", "jane@x.com", "1"⟩]
    ⟨["bob@y.com", "zed"], "s", "b"⟩
  have hc := (h.2.1 ["bob@y.com"] "zed" [] rfl (by decide) (by decide) (by decide)
    (by decide)).1 (by decide)
  simpa using hc

/-! ## Claim C9 — dispatch removes the attempted task on success and failure -/

/-- **C9** (confirmed).  Whenever a dispatch node actually attempts its
provider call (details present), the attempted task is removed from
`pending_tasks` regardless of whether the call succeeds or raises, the task
is not re-queued, and the outcome is surfaced as a single message. -/
theorem C9_dispatch_always_removes_task (s : GraphState) (o : Oracle)
    (r rc : Except String String) :
    (s.email_details.isSome →
      (send_email_node { o with sendEmailResult := r } s).pending_tasks =
          some (s.pending_tasks.filter (· ≠ .email)) ∧
        TaskKind.email ∉ s.pending_tasks.filter (· ≠ .email) ∧
        ∃ m, (send_email_node { o with sendEmailResult := r } s).messages = [Msg.ai m]) ∧
    (s.calendar_details.isSome →
      (create_calendar_event_node { o with calendarResult := rc } s).pending_tasks =
          some (s.pending_tasks.filter (· ≠ .calendar)) ∧
        TaskKind.calendar ∉ s.pending_tasks.filter (· ≠ .calendar) ∧
        ∃ m, (create_calendar_event_node { o with calendarResult := rc } s).messages =
          [Msg.ai m]) := by
  constructor
  · intro hd
    obtain ⟨d, hd⟩ := Option.isSome_iff_exists.mp hd
    unfold send_email_node
    rw [hd]
    cases r <;> exact ⟨rfl, by simp [List.mem_filter], _, rfl⟩
  · intro hd
    obtain ⟨d, hd⟩ := Option.isSome_iff_exists.mp hd
    unfold create_calendar_event_node
    rw [hd]
    cases rc <;> exact ⟨rfl, by simp [List.mem_filter], _, rfl⟩

/-- Witness for C9: a concrete state with both payloads staged as pending and
a failing email provider; both tasks are removed. -/
theorem C9_dispatch_always_removes_task_witness :
    (send_email_node
        { sendEmailResult := Except.error "boom" }
        { email_details := some ⟨["x@y.z"], "s", "b"⟩,
          calendar_details := some ⟨"m", 1, 2, ["x@y.z"], none, none⟩,
          pending_tasks := [.email, .calendar] }).pending_tasks =
      some [TaskKind.calendar] ∧
    TaskKind.email ∉
      ([TaskKind.email, TaskKind.calendar].filter (· ≠ TaskKind.email)) := by
  have h := C9_dispatch_always_removes_task
    { email_details := some ⟨["x@y.z"], "s", "b"⟩,
      calendar_details := some ⟨"m", 1, 2, ["x@y.z"], none, none⟩,
      pending_tasks := [.email, .calendar] }
    {} (Except.error "boom") (Except.ok "done")
  obtain ⟨he, _⟩ := h
  obtain ⟨h1, h2, _⟩ := he (by decide)
  exact ⟨by simpa using h1, h2⟩

/-! ## Claim C10 — per-turn dispatch order -/

theorem dispatchPhase_trace_cases (o : Oracle) (s1 : GraphState) :
    (dispatchPhase o s1).1 = [.final_response] ∨
      (dispatchPhase o s1).1 = [.send_email, .final_response] ∨
      (dispatchPhase o s1).1 = [.send_email, .create_calendar_event, .final_response] ∨
      (dispatchPhase o s1).1 = [.create_calendar_event, .final_response] := by
  unfold dispatchPhase
  split
  · dsimp only
    split
    · right; right; left; simp
    · right; left; simp
  · right; right; right; simp
  · left; simp

theorem dispatchPhase_both (o : Oracle) (s1 : GraphState)
    (he : TaskKind.email ∈ s1.pending_tasks)
    (hc : TaskKind.calendar ∈ s1.pending_tasks) :
    (dispatchPhase o s1).1 = [.send_email, .create_calendar_event, .final_response] := by
  have hd : decide_after_orchestrator s1 = .send_email := by
    simp [decide_after_orchestrator, he]
  have hc2 : TaskKind.calendar ∈ (applyUpdate s1 (send_email_node o s1)).pending_tasks := by
    unfold send_email_node applyUpdate
    cases hde : s1.email_details <;> cases o.sendEmailResult <;>
      simp [List.mem_filter, hc]
  have ha : after_email (applyUpdate s1 (send_email_node o s1)) = .create_calendar_event := by
    simp [after_email, hc2]
  unfold dispatchPhase
  rw [hd]
  dsimp only
  rw [ha]

/-- **C10** (confirmed).  Per turn: when `pending_tasks` holds both tasks
after the orchestrator, `send_email` runs before `create_calendar_event`;
each dispatch node appears at most once in the visited-node trace; and every
turn ends at `final_response`. -/
theorem C10_turn_dispatch_order (rows : List Row) (o : Oracle) (s : GraphState) (u : String) :
    (TaskKind.email ∈ (postOrchestrator rows o s u).1.pending_tasks →
      TaskKind.calendar ∈ (postOrchestrator rows o s u).1.pending_tasks →
      turnTrace rows o s u =
        [.orchestrator, .send_email, .create_calendar_event, .final_response]) ∧
    (turnTrace rows o s u).count .send_email ≤ 1 ∧
    (turnTrace rows o s u).count .create_calendar_event ≤ 1 ∧
    (turnTrace rows o s u).getLast? = some .final_response := by
  unfold turnTrace
  refine ⟨fun he hc => by rw [dispatchPhase_both o _ he hc], ?_, ?_, ?_⟩ <;>
    rcases dispatchPhase_trace_cases o (postOrchestrator rows o s u).1 with h | h | h | h <;>
    rw [h] <;> decide

/-- Witness for C10: a confirm turn over a staged email+calendar pair visits
send_email, then create_calendar_event, then final_response. -/
theorem C10_turn_dispatch_order_witness :
    turnTrace []
        { execRoute := { action := .confirm } }
        { messages := [.human "email and invite bob", .ai "confirm?"],
          awaiting_confirmation := true,
          staged_tasks := [.email, .calendar],
          email_details := some ⟨["bob@x.com"], "s", "b"⟩,
          calendar_details := some ⟨"sync", 10, 70, ["bob@x.com"], none, none⟩ }
        "confirm" =
      [.orchestrator, .send_email, .create_calendar_event, .final_response] := by
  have h := C10_turn_dispatch_order []
    { execRoute := { action := .confirm } }
    { messages := [.human "email and invite bob", .ai "confirm?"],
      awaiting_confirmation := true,
      staged_tasks := [.email, .calendar],
      email_details := some ⟨["bob@x.com"], "s", "b"⟩,
      calendar_details := some ⟨"sync", 10, 70, ["bob@x.com"], none, none⟩ }
    "confirm"
  exact h.1 (by decide) (by decide)

/-! ## Claim C1 — confirmation atomicity -/

theorem latestHuman_addHuman (s : GraphState) (u : String) :
    latestHumanContent (addHuman s u) = u := by
  simp [latestHumanContent, addHuman, Msg.humanContent?]

theorem orchestrator_awaiting_cases (rows : List Row) (o : Oracle) (s : GraphState)
    (u : String) (hawait : s.awaiting_confirmation = true) (hu : u ≠ "") :
    (o.execRoute.action = .confirm ∧
      (orchestrator_node rows o (addHuman s u)).1 =
        { awaiting_confirmation := some false, pending_tasks := some s.staged_tasks }) ∨
    (o.execRoute.action ≠ .confirm ∧
      (orchestrator_node rows o (addHuman s u)).1.pending_tasks = some [] ∧
      (o.execRoute.action = .cancel →
        (orchestrator_node rows o (addHuman s u)).1.staged_tasks = some [] ∧
        (orchestrator_node rows o (addHuman s u)).1.awaiting_confirmation = some false)) := by
  unfold orchestrator_node
  rw [latestHuman_addHuman]
  have haw : (addHuman s u).awaiting_confirmation = true := hawait
  have hst : (addHuman s u).staged_tasks = s.staged_tasks := rfl
  simp only [hu, if_false, haw, if_true, hst]
  cases hact : o.execRoute.action
  · left; exact ⟨rfl, rfl⟩
  all_goals right
  · exact ⟨by simp [hact], rfl, fun _ => ⟨rfl, rfl⟩⟩
  all_goals exact ⟨by simp [hact], rfl, fun hc => by simp [hact] at hc⟩

theorem postOrchestrator_fst (rows : List Row) (o : Oracle) (s : GraphState) (u : String) :
    (postOrchestrator rows o s u).1 =
      applyUpdate (addHuman s u) (orchestrator_node rows o (addHuman s u)).1 := rfl

theorem applyUpdate_pending (s : GraphState) (u : Update) :
    (applyUpdate s u).pending_tasks = u.pending_tasks.getD s.pending_tasks := rfl

theorem applyUpdate_staged (s : GraphState) (u : Update) :
    (applyUpdate s u).staged_tasks = u.staged_tasks.getD s.staged_tasks := rfl

theorem applyUpdate_awaiting (s : GraphState) (u : Update) :
    (applyUpdate s u).awaiting_confirmation =
      u.awaiting_confirmation.getD s.awaiting_confirmation := rfl

theorem applyUpdate_capture (s : GraphState) (u : Update) :
    (applyUpdate s u).pending_contact_capture =
      u.pending_contact_capture.getD s.pending_contact_capture := rfl

theorem runTurn_fst (rows : List Row) (o : Oracle) (s : GraphState) (u : String) :
    (runTurn rows o s u).1 = (dispatchPhase o (postOrchestrator rows o s u).1).2 := rfl

theorem dispatchPhase_final (o : Oracle) (s1 : GraphState)
    (h : decide_after_orchestrator s1 = .final_response) :
    dispatchPhase o s1 = ([.final_response], applyUpdate s1 (final_response_node s1)) := by
  unfold dispatchPhase
  rw [h]

theorem final_response_node_tasks (s1 : GraphState) :
    (final_response_node s1).pending_tasks = none ∧
      (final_response_node s1).staged_tasks = none := by
  unfold final_response_node
  cases hfind : s1.messages.reverse.findSome? (fun m =>
    match m with
    | .ai c => if c ≠ "" then some c else none
    | .human _ => none) <;> exact ⟨rfl, rfl⟩

/-- **C1** (confirmed).  With the confirmation gate up, a turn whose
classification is not `confirm` ends with empty `pending_tasks`, so the turn
routes straight to `final_response` and neither dispatch node runs; a
`cancel` turn additionally closes the gate and erases all staged tasks (also
at the end of the full turn), and any turn that confirms over an empty
staged set dispatches nothing. -/
theorem C1_confirmation_atomicity (rows : List Row) (o : Oracle) (s : GraphState)
    (u : String) (hawait : s.awaiting_confirmation = true) (hu : u ≠ "") :
    (o.execRoute.action ≠ .confirm →
      (postOrchestrator rows o s u).1.pending_tasks = [] ∧
      decide_after_orchestrator (postOrchestrator rows o s u).1 = .final_response ∧
      (dispatchPhase o (postOrchestrator rows o s u).1).1 = [.final_response]) ∧
    (o.execRoute.action = .cancel →
      (postOrchestrator rows o s u).1.staged_tasks = [] ∧
      (postOrchestrator rows o s u).1.awaiting_confirmation = false ∧
      (runTurn rows o s u).1.staged_tasks = [] ∧
      (runTurn rows o s u).1.pending_tasks = []) ∧
    (∀ (rows2 : List Row) (o2 : Oracle) (s2 : GraphState) (u2 : String),
      s2.staged_tasks = [] → s2.awaiting_confirmation = true → u2 ≠ "" →
      o2.execRoute.action = .confirm →
      (postOrchestrator rows2 o2 s2 u2).1.pending_tasks = []) := by
  have hroute : ∀ s1 : GraphState, s1.pending_tasks = [] →
      decide_after_orchestrator s1 = .final_response := by
    intro s1 h1
    simp [decide_after_orchestrator, h1]
  refine ⟨?_, ?_, ?_⟩
  · intro hnc
    rcases orchestrator_awaiting_cases rows o s u hawait hu with ⟨hc, _⟩ | ⟨_, hp, _⟩
    · exact absurd hc hnc
    · have h1 : (postOrchestrator rows o s u).1.pending_tasks = [] := by
        rw [postOrchestrator_fst, applyUpdate_pending, hp]
        rfl
      refine ⟨h1, hroute _ h1, ?_⟩
      rw [dispatchPhase_final o _ (hroute _ h1)]
  · intro hc
    rcases orchestrator_awaiting_cases rows o s u hawait hu with ⟨hcf, _⟩ | ⟨_, hp, himp⟩
    · rw [hc] at hcf
      exact absurd hcf.symm (by decide)
    · obtain ⟨hst, haw⟩ := himp hc
      have h1 : (postOrchestrator rows o s u).1.pending_tasks = [] := by
        rw [postOrchestrator_fst, applyUpdate_pending, hp]
        rfl
      have hs1 : (postOrchestrator rows o s u).1.staged_tasks = [] := by
        rw [postOrchestrator_fst, applyUpdate_staged, hst]
        rfl
      have ha1 : (postOrchestrator rows o s u).1.awaiting_confirmation = false := by
        rw [postOrchestrator_fst, applyUpdate_awaiting, haw]
        rfl
      have hrun : (runTurn rows o s u).1 =
          applyUpdate (postOrchestrator rows o s u).1
            (final_response_node (postOrchestrator rows o s u).1) := by
        rw [runTurn_fst, dispatchPhase_final o _ (hroute _ h1)]
      refine ⟨hs1, ha1, ?_, ?_⟩
      · rw [hrun, applyUpdate_staged, (final_response_node_tasks _).2, Option.getD_none, hs1]
      · rw [hrun, applyUpdate_pending, (final_response_node_tasks _).1, Option.getD_none, h1]
  · intro rows2 o2 s2 u2 hst2 haw2 hu2 hcf2
    rcases orchestrator_awaiting_cases rows2 o2 s2 u2 haw2 hu2 with ⟨_, hupd⟩ | ⟨hnc, _⟩
    · rw [postOrchestrator_fst, applyUpdate_pending, hupd]
      simp [hst2]
    · exact absurd hcf2 hnc

/-- Witness for C1: a cancel turn over a staged email clears the gate, the
staged set, and dispatch, ending the turn at final_response. -/
theorem C1_confirmation_atomicity_witness :
    (postOrchestrator []
        { execRoute := { action := .cancel } }
        { messages := [.human "email bob", .ai "confirm?"],
          awaiting_confirmation := true,
          staged_tasks := [.email],
          email_details := some ⟨["bob@x.com"], "s", "b"⟩ }
        "cancel that").1.staged_tasks = [] ∧
    (dispatchPhase
        { execRoute := { action := .cancel } }
        (postOrchestrator []
          { execRoute := { action := .cancel } }
          { messages := [.human "email bob", .ai "confirm?"],
            awaiting_confirmation := true,
            staged_tasks := [.email],
            email_details := some ⟨["bob@x.com"], "s", "b"⟩ }
          "cancel that").1).1 = [.final_response] := by
  have h := C1_confirmation_atomicity []
    { execRoute := { action := .cancel } }
    { messages := [.human "email bob", .ai "confirm?"],
      awaiting_confirmation := true,
      staged_tasks := [.email],
      email_details := some ⟨["bob@x.com"], "s", "b"⟩ }
    "cancel that" (by decide) (by decide)
  exact ⟨(h.2.1 rfl).1, (h.1 (by decide)).2.2⟩

/-! ## Claim C4 — staged/pending interplay -/

theorem emailFlowEarlyCheck_pending (contacts : List Contact) (merged : Draft) :
    ∀ (l : List String) (upd : Update), emailFlowEarlyCheck contacts merged l = some upd →
      upd.pending_tasks = some []
  | [], upd, h => by simp [emailFlowEarlyCheck] at h
  | raw :: rest, upd, h => by
    rw [emailFlowEarlyCheck] at h
    by_cases h1 : (pyStrip raw = "" || is_valid_email (pyStrip raw)) = true
    · rw [if_pos h1] at h
      exact emailFlowEarlyCheck_pending contacts merged rest upd h
    · rw [if_neg h1] at h
      cases hs : search_contacts contacts (pyStrip raw) none with
      | nil =>
        rw [hs] at h
        cases h
        rfl
      | cons m ms =>
        cases ms with
        | nil =>
          rw [hs] at h
          exact emailFlowEarlyCheck_pending contacts merged rest upd h
        | cons m2 ms2 =>
          rw [hs] at h
          cases h
          rfl

theorem buildEmailFlowResponse_pending (contacts : List Contact) (o : Oracle)
    (merged : Draft) : (buildEmailFlowResponse contacts o merged).pending_tasks = some [] := by
  unfold buildEmailFlowResponse
  cases hearly : emailFlowEarlyCheck contacts merged merged.«to» with
  | some upd => exact emailFlowEarlyCheck_pending contacts merged merged.«to» upd hearly
  | none =>
    dsimp only
    split
    · rfl
    · split
      · rfl
      · rfl
      · dsimp only
        split <;> rfl

theorem handleContactCaptureDetails_pending (rows : List Row) (o : Oracle)
    (s : GraphState) (cap : Capture) (u : String) :
    (handleContactCaptureDetails rows o s cap u).1.pending_tasks = some [] := by
  unfold handleContactCaptureDetails
  cases hp : parseContactDetails o u with
  | error msg => rfl
  | ok parsed =>
    dsimp only
    cases hs : save_contact rows parsed.first_name parsed.last_name parsed.email parsed.phone with
    | error e => rfl
    | ok pr =>
      obtain ⟨saved, rows2⟩ := pr
      dsimp only
      split
      · rfl
      · exact buildEmailFlowResponse_pending _ o _

theorem orchestratorMainRouting_pending (rows : List Row) (o : Oracle) (s : GraphState) :
    (orchestratorMainRouting rows o s).1.pending_tasks = some [] := by
  unfold orchestratorMainRouting
  dsimp only
  repeat' split
  all_goals first
    | rfl
    | exact buildEmailFlowResponse_pending _ o _

theorem altRecipientResponse_pending (rows : List Row) (o : Oracle) (s : GraphState)
    (capture : Capture) (decision : PendingStateRoute) (um : String) :
    ∀ upd, altRecipientResponse rows o s capture decision um = some upd →
      upd.pending_tasks = some [] := by
  intro upd h
  unfold altRecipientResponse at h
  by_cases h0 : (capture.source ≠ some "lookup_only" &&
      decision.action = RouteAction.alternate_recipient) = true
  · rw [if_pos h0] at h
    dsimp only at h
    by_cases h1 : pyStrip (if decision.recipient_candidate.getD "" = "" then um
        else decision.recipient_candidate.getD "") ≠ ""
    · rw [if_pos h1] at h
      by_cases h2 : is_valid_email (pyStrip (if decision.recipient_candidate.getD "" = "" then um
          else decision.recipient_candidate.getD "")) = true
      · rw [if_pos h2] at h
        cases h
        exact buildEmailFlowResponse_pending _ o _
      · rw [if_neg h2] at h
        cases hs : search_contacts (loadRows rows)
            (pyStrip (if decision.recipient_candidate.getD "" = "" then um
              else decision.recipient_candidate.getD "")) none with
        | nil => rw [hs] at h; cases h
        | cons m ms =>
          cases ms with
          | nil =>
            rw [hs] at h
            cases h
            exact buildEmailFlowResponse_pending _ o _
          | cons m2 ms2 => rw [hs] at h; cases h
    · rw [if_neg h1] at h; cases h
  · rw [if_neg h0] at h; cases h

theorem orchestrator_pending_cases (rows : List Row) (o : Oracle) (s0 : GraphState) :
    (orchestrator_node rows o s0).1.pending_tasks = some [] ∨
      (s0.awaiting_confirmation = true ∧ o.execRoute.action = .confirm ∧
        (orchestrator_node rows o s0).1 =
          { awaiting_confirmation := some false, pending_tasks := some s0.staged_tasks }) := by
  unfold orchestrator_node
  dsimp only
  split
  · left; rfl
  · rename_i hne
    split
    · rename_i haw
      cases hact : o.execRoute.action
      case confirm => right; exact ⟨by simpa using haw, rfl, rfl⟩
      all_goals left; rfl
    · cases hcap : s0.pending_contact_capture with
      | none => left; exact orchestratorMainRouting_pending rows o s0
      | some capture =>
        dsimp only
        split
        · split
          · left
            exact handleContactCaptureDetails_pending rows o s0 _ _
          · split
            · left; rfl
            · split
              · left; rfl
              · cases halt : altRecipientResponse rows o s0 capture o.captureRoute
                    (latestHumanContent s0) with
                | some upd =>
                  left
                  exact altRecipientResponse_pending rows o s0 capture o.captureRoute
                    (latestHumanContent s0) upd halt
                | none =>
                  dsimp only
                  split
                  · left; rfl
                  · left; exact orchestratorMainRouting_pending rows o s0
        · left
          exact handleContactCaptureDetails_pending rows o s0 _ _

/-- Oracle for a one-shot staging turn: the slot extractor reports a complete
email draft to a literal address; every other capability output is inert. -/
def c4StageOracle : Oracle :=
  { convRoute := { action := .other },
    slotUpdate := { intent := "send_email", «to» := some ["bob@x.com"],
                    subject := some "s", body := some "b" } }

/-- The conversation state after turn 1 (staging) from the empty initial
state: `staged_tasks = [email]`, `awaiting_confirmation = true`. -/
def c4State1 : GraphState :=
  (runTurn [] c4StageOracle {} "email bob@x.com subject s body b").1

/-- The state right after the orchestrator of turn 2 (a `confirm` turn). -/
def c4Mid : GraphState :=
  (postOrchestrator [] { execRoute := { action := .confirm } } c4State1 "yes").1

/-- **C4 counterexample.**  A reachable state (two turns from the empty
state: stage an email, then confirm) in which `staged_tasks` and
`pending_tasks` are simultaneously non-empty: the confirm branch copies
`staged_tasks` into `pending_tasks` without clearing `staged_tasks`. -/
theorem C4_counterexample_both_nonempty :
    c4Mid.staged_tasks = [TaskKind.email] ∧ c4Mid.pending_tasks = [TaskKind.email] := by
  constructor <;> rfl

/-- **C4** (corrected).  What does hold: `pending_tasks` becomes non-empty
only when a turn arriving on `awaiting_confirmation` is classified `confirm`,
and it then receives exactly the staged set — but `staged_tasks` is not
cleared by that transition (hence the counterexample above). -/
theorem C4_pending_only_via_confirm (rows : List Row) (o : Oracle) (s : GraphState)
    (u : String) (hne : (postOrchestrator rows o s u).1.pending_tasks ≠ []) :
    s.awaiting_confirmation = true ∧ o.execRoute.action = .confirm ∧
      (postOrchestrator rows o s u).1.pending_tasks = s.staged_tasks ∧
      (postOrchestrator rows o s u).1.staged_tasks = s.staged_tasks := by
  rcases orchestrator_pending_cases rows o (addHuman s u) with hp | ⟨haw, hact, hupd⟩
  · exfalso
    apply hne
    rw [postOrchestrator_fst, applyUpdate_pending, hp]
    rfl
  · refine ⟨haw, hact, ?_, ?_⟩
    · rw [postOrchestrator_fst, applyUpdate_pending, hupd]
      rfl
    · rw [postOrchestrator_fst, applyUpdate_staged, hupd]
      rfl

/-- Witness for the amended C4: on the concrete confirm turn of the
counterexample run, the non-empty pending set implies the turn was a confirm
over `awaiting_confirmation`, with `pending_tasks` receiving the staged set. -/
theorem C4_pending_only_via_confirm_witness :
    c4State1.awaiting_confirmation = true ∧
      c4Mid.pending_tasks = c4State1.staged_tasks := by
  have h := C4_pending_only_via_confirm [] { execRoute := { action := .confirm } }
    c4State1 "yes" (by decide)
  exact ⟨h.1, h.2.2.1⟩

/-! ## Claim C5 — capture state on an `other` classification -/

/-- **C5** (code bug).  Failing input: a capture awaiting create-confirmation
whose turn is classified `other`, with the fresh routing reaching the full
planner (here: planner answers `none`).  The code comments intend the stale
capture to be cleared on fall-through, and the spec says it is absent after
the turn, but the planner-path update never touches
`pending_contact_capture`, so the capture survives the turn. -/
theorem C5_capture_survives_other_turn :
    (postOrchestrator []
        { captureRoute := { action := .other },
          convRoute := { action := .other },
          slotUpdate := { intent := "unknown" },
          lookup := { intent := "other" },
          plan := { action := "none" } }
        { messages := [.human "find bobx", .ai "create a contact for bobx?"],
          pending_contact_capture :=
            some { query := "bobx", awaiting_create_confirmation := true } }
        "what can you do").1.pending_contact_capture =
      some { query := "bobx", awaiting_create_confirmation := true } := by
  rfl

/-! ## Claim C8 — meeting-intent attachment -/

/-- **C8 counterexample.**  The extractor reports a calendar event with a
title and a start time but no end time: the code stages only the email (no
calendar action is synthesized, no start+1-hour default is computed in code —
the prompt delegates that default to the extractor). -/
theorem C8_counterexample_no_end_time :
    (buildEmailFlowResponse []
        { meeting := { create_calendar_event := true, title := some "Sync",
                       start_time := some 100, end_time := none } }
        { «to» := ["bob@x.com"], subject := "s", body := "b" }).staged_tasks =
      some [.email] ∧
    (buildEmailFlowResponse []
        { meeting := { create_calendar_event := true, title := some "Sync",
                       start_time := some 100, end_time := none } }
        { «to» := ["bob@x.com"], subject := "s", body := "b" }).calendar_details = none ∧
    (buildEmailFlowResponse []
        { meeting := { create_calendar_event := true, title := some "Sync",
                       start_time := some 100, end_time := none } }
        { «to» := ["bob@x.com"], subject := "s", body := "b" }).orchestrator_decision =
      some "send_email" := by
  refine ⟨rfl, rfl, rfl⟩

/-- **C8** (corrected).  When the email flow reaches a fully resolved email
and the extractor supplies a title, a start time *and an end time*, the
calendar action is synthesized and staged with the email as a combined
`both` action under one confirmation gate; its attendees default to the
resolved recipients when the extractor gives none (or an empty list), and
its description defaults to the email body when absent or empty. -/
theorem C8_meeting_attachment (contacts : List Contact) (o : Oracle) (merged : Draft)
    (resolved : List String) (ttl : String) (st en : Nat)
    (h1 : emailFlowEarlyCheck contacts merged merged.«to» = none)
    (h2 : (merged.«to».isEmpty || merged.subject = "" || merged.body = "") = false)
    (h3 : resolveRecipients contacts
      ⟨(polishEmailDraft o merged).«to», (polishEmailDraft o merged).subject,
        (polishEmailDraft o merged).body⟩ = (resolved, none, none))
    (h4 : o.meeting.create_calendar_event = true)
    (h5 : o.meeting.title = some ttl) (h5ne : ttl ≠ "")
    (h6 : o.meeting.start_time = some st)
    (h7 : o.meeting.end_time = some en) :
    (buildEmailFlowResponse contacts o merged).staged_tasks = some [.email, .calendar] ∧
    (buildEmailFlowResponse contacts o merged).orchestrator_decision = some "both" ∧
    (buildEmailFlowResponse contacts o merged).awaiting_confirmation = some true ∧
    (buildEmailFlowResponse contacts o merged).pending_tasks = some [] ∧
    (buildEmailFlowResponse contacts o merged).email_details =
      some (some ⟨resolved, (polishEmailDraft o merged).subject,
        (polishEmailDraft o merged).body⟩) ∧
    (buildEmailFlowResponse contacts o merged).calendar_details =
      some (some
        { title := ttl, start_time := st, end_time := en,
          attendees :=
            if (o.meeting.attendees.getD []).isEmpty then resolved
            else o.meeting.attendees.getD [],
          location := o.meeting.location,
          description :=
            if o.meeting.description.getD "" = "" then
              some (polishEmailDraft o merged).body
            else o.meeting.description }) := by
  unfold buildEmailFlowResponse
  rw [h1]
  dsimp only
  rw [if_neg (by rw [h2]; exact Bool.false_ne_true)]
  rw [h3]
  dsimp only
  rw [if_pos (by rw [h4, h5, h6, h7]; simp [h5ne])]
  rw [h5, h6, h7]
  exact ⟨rfl, rfl, rfl, rfl, rfl, rfl⟩

/-- Witness for C8: a complete draft to a literal address with a full meeting
extraction (attendees and description absent) stages email+calendar as
`both`, defaulting attendees to the resolved recipients and the description
to the email body. -/
theorem C8_meeting_attachment_witness :
    (buildEmailFlowResponse []
        { meeting := { create_calendar_event := true, title := some "Sync",
                       start_time := some 100, end_time := some 160 } }
        { «to» := ["bob@x.com"], subject := "s", body := "b" }).staged_tasks =
      some [.email, .calendar] ∧
    (buildEmailFlowResponse []
        { meeting := { create_calendar_event := true, title := some "Sync",
                       start_time := some 100, end_time := some 160 } }
        { «to» := ["bob@x.com"], subject := "s", body := "b" }).calendar_details =
      some (some
        { title := "Sync", start_time := 100, end_time := 160,
          attendees := ["bob@x.com"], location := none, description := some "b" }) := by
  have h := C8_meeting_attachment []
    { meeting := { create_calendar_event := true, title := some "Sync",
                   start_time := some 100, end_time := some 160 } }
    { «to» := ["bob@x.com"], subject := "s", body := "b" }
    ["bob@x.com"] "Sync" 100 160 rfl rfl (by decide) rfl rfl (by decide) rfl rfl
  exact ⟨h.1, h.2.2.2.2.2⟩

/-! ## Claim C6 — contact round trip -/

theorem saveJsonRows_mem (f l e p : String) :
    ∀ rows : List Row, mkRow f l e p ∈ saveJsonRows rows f l e p
  | [] => by simp [saveJsonRows]
  | r :: rs => by
    rw [saveJsonRows]
    split
    · exact List.mem_cons_self _ _
    · exact List.mem_cons_of_mem _ (saveJsonRows_mem f l e p rs)

theorem saveJsonRows_length_of_mem (f l e p : String) :
    ∀ rows : List Row, (∃ r ∈ rows, pyLower (pyStrip r.email) = pyLower e) →
      (saveJsonRows rows f l e p).length = rows.length
  | [], h => by simp at h
  | r :: rs, h => by
    rw [saveJsonRows]
    split
    · simp
    · rename_i hne
      obtain ⟨r0, hr0, hkey⟩ := h
      rcases List.mem_cons.mp hr0 with rfl | hr0
      · exact absurd hkey hne
      · simp only [List.length_cons]
        rw [saveJsonRows_length_of_mem f l e p rs ⟨r0, hr0, hkey⟩]

theorem parseRow_mkRow (f l e p : String)
    (hf : pyStrip f = f) (hl : pyStrip l = l) (he : pyStrip e = e) (hp : pyStrip p = p)
    (hne : f ≠ "" ∨ l ≠ "") (hv : is_valid_email e = true) :
    parseRow (mkRow f l e p) = some ⟨f, l, e, p⟩ := by
  unfold parseRow mkRow
  dsimp only
  rw [hf, hl, he, hp]
  rcases hne with h | h <;> simp [h, hv]

theorem loadRows_mem {rows : List Row} {row : Row} {c : Contact}
    (hr : row ∈ rows) (hp : parseRow row = some c) : c ∈ loadRows rows :=
  List.mem_filterMap.mpr ⟨row, hr, hp⟩

theorem search_contacts_exact_name_mem (contacts : List Contact) (c : Contact)
    (hc : c ∈ contacts) (hq : pyNormalize c.name ≠ "") :
    c ∈ search_contacts contacts c.name none := by
  unfold search_contacts
  dsimp only
  rw [if_neg hq]
  have hmem : c ∈ contacts.filter (fun x => decide (pyNormalize c.name ∈ exactFields x)) := by
    rw [List.mem_filter]
    refine ⟨hc, ?_⟩
    simp [exactFields]
  rw [if_pos (List.ne_nil_of_mem hmem)]
  exact hmem

/-- **C6** (corrected).  The round trip that the code actually provides: a
valid saved contact is found again by `search_contacts` on its exact full
name, and by the case-insensitive email-equality filter that the lookup path
uses for email queries; saving again under the same email (any case) updates
in place, leaving the stored row count unchanged.  (Searching by email
through `search_contacts` itself can fail — see the counterexample.) -/
theorem C6_contact_round_trip (rows : List Row) (f l e p : String)
    (hname : pyStrip (pyStrip f ++ " " ++ pyStrip l) ≠ "")
    (hmail : is_valid_email (pyStrip e) = true)
    (hnorm : pyNormalize (pyStrip (pyStrip f ++ " " ++ pyStrip l)) ≠ "") :
    ∃ saved rows2, save_contact rows f l e p = .ok (saved, rows2) ∧
      saved ∈ search_contacts (loadRows rows2) saved.name none ∧
      saved ∈ (loadRows rows2).filter
        (fun c => decide (pyLower c.email = pyLower saved.email)) ∧
      (∀ f2 l2 e2 p2, pyLower (pyStrip e2) = pyLower (pyStrip e) →
        pyStrip (pyStrip f2 ++ " " ++ pyStrip l2) ≠ "" →
        is_valid_email (pyStrip e2) = true →
        ∃ saved2 rows3, save_contact rows2 f2 l2 e2 p2 = .ok (saved2, rows3) ∧
          rows3.length = rows2.length) := by
  have hsave : save_contact rows f l e p =
      .ok (⟨pyStrip f, pyStrip l, pyStrip e, pyStrip p⟩,
        saveJsonRows rows (pyStrip f) (pyStrip l) (pyStrip e) (pyStrip p)) := by
    unfold save_contact
    rw [if_neg hname, if_neg (by rw [hmail]; simp)]
  have hne : pyStrip f ≠ "" ∨ pyStrip l ≠ "" := by
    by_contra hno
    push_neg at hno
    apply hname
    rw [hno.1, hno.2]
    decide
  have hparse : parseRow (mkRow (pyStrip f) (pyStrip l) (pyStrip e) (pyStrip p)) =
      some ⟨pyStrip f, pyStrip l, pyStrip e, pyStrip p⟩ :=
    parseRow_mkRow _ _ _ _ (pyStrip_idem f) (pyStrip_idem l) (pyStrip_idem e)
      (pyStrip_idem p) hne hmail
  have hcmem : (⟨pyStrip f, pyStrip l, pyStrip e, pyStrip p⟩ : Contact) ∈
      loadRows (saveJsonRows rows (pyStrip f) (pyStrip l) (pyStrip e) (pyStrip p)) :=
    loadRows_mem (saveJsonRows_mem _ _ _ _ rows) hparse
  refine ⟨_, _, hsave, ?_, ?_, ?_⟩
  · exact search_contacts_exact_name_mem _ _ hcmem hnorm
  · rw [List.mem_filter]
    exact ⟨hcmem, by simp⟩
  · intro f2 l2 e2 p2 hkey hname2 hmail2
    refine ⟨⟨pyStrip f2, pyStrip l2, pyStrip e2, pyStrip p2⟩,
      saveJsonRows (saveJsonRows rows (pyStrip f) (pyStrip l) (pyStrip e) (pyStrip p))
        (pyStrip f2) (pyStrip l2) (pyStrip e2) (pyStrip p2), ?_, ?_⟩
    · unfold save_contact
      rw [if_neg hname2, if_neg (by rw [hmail2]; simp)]
    · apply saveJsonRows_length_of_mem
      refine ⟨mkRow (pyStrip f) (pyStrip l) (pyStrip e) (pyStrip p),
        saveJsonRows_mem _ _ _ _ rows, ?_⟩
      show pyLower (pyStrip (pyStrip e)) = pyLower (pyStrip e2)
      rw [pyStrip_idem]
      exact hkey.symm

/-- Witness for C6: saving Ann Lee and re-searching by the exact full name
returns her; saving again under the uppercased email does not grow storage. -/
theorem C6_contact_round_trip_witness :
    (⟨"Ann", "Lee", "ann.lee@x.com", "7"⟩ : Contact) ∈
      search_contacts (loadRows [mkRow "Ann" "Lee" "ann.lee@x.com" "7"])
        (Contact.name ⟨"Ann", "Lee", "ann.lee@x.com", "7"⟩) none ∧
    (saveJsonRows [mkRow "Ann" "Lee" "ann.lee@x.com" "7"]
        "Ann" "Lee" "ANN.LEE@X.COM" "7").length =
      [mkRow "Ann" "Lee" "ann.lee@x.com" "7"].length := by
  obtain ⟨saved, rows2, hs, hsearch, _, hagain⟩ :=
    C6_contact_round_trip [] "Ann" "Lee" "ann.lee@x.com" "7"
      (by decide) (by decide) (by decide)
  have hs0 : save_contact [] "Ann" "Lee" "ann.lee@x.com" "7" =
      .ok ((⟨"Ann", "Lee", "ann.lee@x.com", "7"⟩ : Contact),
        [mkRow "Ann" "Lee" "ann.lee@x.com" "7"]) := rfl
  have hpair := hs0.symm.trans hs
  simp only [Except.ok.injEq, Prod.mk.injEq] at hpair
  obtain ⟨hc, hr⟩ := hpair
  constructor
  · rw [hc, hr]
    exact hsearch
  · obtain ⟨saved2, rows3, hs2, hlen⟩ :=
      hagain "Ann" "Lee" "ANN.LEE@X.COM" "7" (by decide) (by decide) (by decide)
    rw [← hr] at hs2 hlen
    have hs20 : save_contact [mkRow "Ann" "Lee" "ann.lee@x.com" "7"]
        "Ann" "Lee" "ANN.LEE@X.COM" "7" =
      .ok ((⟨"Ann", "Lee", "ANN.LEE@X.COM", "7"⟩ : Contact),
        saveJsonRows [mkRow "Ann" "Lee" "ann.lee@x.com" "7"]
          "Ann" "Lee" "ANN.LEE@X.COM" "7") := rfl
    have hpair2 := hs20.symm.trans hs2
    simp only [Except.ok.injEq, Prod.mk.injEq] at hpair2
    rw [hpair2.2]
    exact hlen

/-- **C6 counterexample.**  Saving Jane Doe under `jane@x.com` and then
calling `search_contacts` with that exact email returns the empty list (the
`@`/`.` are dropped by normalization, so neither the exact-field phase nor
the fuzzy phase reaches the 0.7 default threshold): searching by email via
`search_contacts` does not return the saved contact. -/
theorem C6_counterexample_search_by_email :
    save_contact [] "Jane" "Doe" "jane@x.com" "1" =
      .ok (⟨"Jane", "Doe", "jane@x.com", "1"⟩, [mkRow "Jane" "Doe" "jane@x.com" "1"]) ∧
    search_contacts (loadRows [mkRow "Jane" "Doe" "jane@x.com" "1"]) "jane@x.com" none =
      [] := by
  exact ⟨rfl, by decide⟩

/-! ## Claim C7 — `load_contacts` failure behavior

The file system and the two external parsers are modelled abstractly: the
configured file is absent, or holds text (decodable content), or holds bytes
that fail UTF-8 decoding (`binary`); `json.loads` output is a list of
entries — each a mapping (`obj`, with absent keys as `""`, covering falsy
entries) or a truthy non-mapping (`bad`, on which the row loop's
`(row or {}).get` raises `AttributeError`) — or a non-list document;
`csv.DictReader` row parsing of decoded text is modelled total.  Only the
JSON branch wraps reading and parsing in `try/except`; the row loops and the
whole CSV branch run unprotected. -/

inductive FileData where
  | absent
  | text (s : String)
  | binary
  deriving Repr, DecidableEq

inductive StorageExt where
  | json
  | csv
  deriving Repr, DecidableEq

inductive JsonItem where
  | obj (r : Row)
  | bad
  deriving Repr, DecidableEq

inductive JsonDoc where
  | list (items : List JsonItem)
  | nonList
  deriving Repr, DecidableEq

def JsonItem.row? : JsonItem → Option Row
  | .obj r => some r
  | .bad => none

/-- `load_contacts` over the abstract storage: dispatch on the configured
extension, read, parse, and run the row loop, propagating exactly the
exceptions the code does not catch. -/
def load_contacts (ext : StorageExt) (data : FileData)
    (jsonParse : String → Option JsonDoc) (csvParse : String → List Row) :
    Except String (List Contact) :=
  match data with
  | .absent => .ok []
  | .binary =>
    match ext with
    | .csv => .error "UnicodeDecodeError"
    | .json => .ok []
  | .text s =>
    match ext with
    | .csv => .ok (loadRows (csvParse s))
    | .json =>
      match jsonParse s with
      | none => .ok []
      | some .nonList => .ok []
      | some (.list items) =>
        if items.contains .bad then .error "AttributeError"
        else .ok (loadRows (items.filterMap JsonItem.row?))

/-- **C7 counterexample.**  Corrupt storage on which `load_contacts` raises
instead of returning a list: undecodable bytes behind a `.csv` path
(no `try` protects the CSV branch), and a JSON document that parses to a
list containing a truthy non-mapping entry (the row loop sits outside the
`try`). -/
theorem C7_counterexample_load_raises :
    load_contacts .csv .binary (fun _ => none) (fun _ => []) =
      .error "UnicodeDecodeError" ∧
    load_contacts .json (.text "[1]") (fun _ => some (.list [.bad])) (fun _ => []) =
      .error "AttributeError" := by
  exact ⟨rfl, rfl⟩

/-- **C7** (corrected).  Where the fail-soft contract does hold, and the
exact failure boundary: absent storage always yields `[]`; decodable CSV
and JSON documents whose entries are all mappings (or unparsable/non-list
JSON) return a list; and an error escapes exactly for undecodable CSV
content or a parsed JSON list containing a truthy non-mapping entry. -/
theorem C7_load_contacts_fail_soft (ext : StorageExt) (data : FileData)
    (jsonParse : String → Option JsonDoc) (csvParse : String → List Row) :
    (data = .absent → load_contacts ext data jsonParse csvParse = .ok []) ∧
    ((∃ e, load_contacts ext data jsonParse csvParse = .error e) ↔
      ((ext = .csv ∧ data = .binary) ∨
       (ext = .json ∧ ∃ s items, data = .text s ∧
         jsonParse s = some (.list items) ∧ JsonItem.bad ∈ items))) := by
  constructor
  · intro h
    rw [h]
    rfl
  · constructor
    · rintro ⟨e, he⟩
      cases data with
      | absent => simp [load_contacts] at he
      | binary =>
        cases ext with
        | csv => exact Or.inl ⟨rfl, rfl⟩
        | json => simp [load_contacts] at he
      | text s =>
        cases ext with
        | csv => simp [load_contacts] at he
        | json =>
          cases hj : jsonParse s with
          | none => simp [load_contacts, hj] at he
          | some doc =>
            cases doc with
            | nonList => simp [load_contacts, hj] at he
            | list items =>
              right
              refine ⟨rfl, s, items, rfl, hj, ?_⟩
              by_cases hb : JsonItem.bad ∈ items
              · exact hb
              · exfalso
                simp [load_contacts, hj, hb] at he
    · rintro (⟨hext, hdata⟩ | ⟨hext, s, items, hdata, hj, hbad⟩)
      · subst hext; subst hdata
        exact ⟨"UnicodeDecodeError", rfl⟩
      · subst hext; subst hdata
        refine ⟨"AttributeError", ?_⟩
        simp only [load_contacts, hj]
        rw [if_pos (by simpa using hbad)]

/-- Witness for C7: a valid one-row JSON document loads to the parsed
contact, without error. -/
theorem C7_load_contacts_fail_soft_witness :
    load_contacts .json .absent (fun _ => none) (fun _ => []) = .ok [] ∧
    ¬∃ e, load_contacts .json
        (.text "[]") (fun _ => some (.list [.obj (mkRow "Ann" "Lee" "ann@x.com" "7")]))
        (fun _ => []) = .error e := by
  constructor
  · exact (C7_load_contacts_fail_soft .json .absent (fun _ => none) (fun _ => [])).1 rfl
  · intro he
    have h := (C7_load_contacts_fail_soft .json (.text "[]")
      (fun _ => some (.list [.obj (mkRow "Ann" "Lee" "ann@x.com" "7")]))
      (fun _ => [])).2.1 he
    rcases h with ⟨h1, _⟩ | ⟨_, s, items, hdata, hj, hbad⟩
    · cases h1
    · cases hdata
      cases hj
      simp at hbad
